import Mathlib

/-!
Verification of the configuration-driven dialogue orchestrator.

The development shallowly embeds the repository's core modules:
`ConfigLoader.validateConfig` / `loadConfig` / `switchToConfig`,
`GenericSlotExtractor.validateAndCleanSlots` / `validateSlotValue`,
`GenericIntentDetector.detectIntent`,
`GenericOrchestrator.processMessage` / `extractSlotsWithContext` /
`handleSlotCollection` / `generateSlotFollowUpQuestion` / `executeSkill`,
and the conversation store operations the orchestrator calls.

JavaScript field maps (string-keyed objects with possibly null, undefined or
empty-string values) are embedded as association lists over `Value`, where
`none` stands for null/undefined and `some s` for the string `s`; JavaScript
truthiness of such a value is `truthy`.  Mutation of a configuration object
during validation is embedded by returning the post-state of the object, and
thrown exceptions by `Except Unit`.
-/

namespace Orch

/-- A JavaScript field value: `none` models null/undefined, `some s` a string. -/
abbrev Value := Option String

/-- JavaScript truthiness of a field value: null, undefined and "" are falsy. -/
def truthy : Value → Bool
  | none => false
  | some s => s != ""

/-- A JavaScript object used as a string-keyed map: an association list. -/
abbrev FieldMap := List (String × Value)

/-- Property read `m[k]`: `none` when the key is absent. -/
def alookup {α : Type} : List (String × α) → String → Option α
  | [], _ => none
  | (k', v) :: rest, k => if k' == k then some v else alookup rest k

/-- Whether the object has the key at all (`k in m`). -/
def hasKey {α : Type} (m : List (String × α)) (k : String) : Bool :=
  (alookup m k).isSome

/-- Property assignment `m[k] = v`: replaces the value in place when the key
exists, appends the pair otherwise (JavaScript object insertion order). -/
def setA {α : Type} : List (String × α) → String → α → List (String × α)
  | [], k, v => [(k, v)]
  | (k', v') :: rest, k, v =>
    if k' == k then (k', v) :: rest else (k', v') :: setA rest k v

/-- Truthiness of `m[k]`: false when the key is absent or its value is falsy. -/
def truthyAt (m : FieldMap) (k : String) : Bool :=
  match alookup m k with
  | some v => truthy v
  | none => false

/-- Object spread `{...a, ...b}`: entries of `b` override same-keyed entries
of `a`, fresh keys of `b` are appended in order. -/
def mergeF (a b : FieldMap) : FieldMap :=
  b.foldl (fun acc kv => setA acc kv.1 kv.2) a

/-- `metadata` section of a `DomainConfig`; an absent field is the empty
string (both are falsy in the source's checks). -/
structure Metadata where
  name : String
  version : String
  description : String
deriving Repr, DecidableEq

/-- `IntentDefinition` of configSchema.ts; `patterns` keeps only what the
validator inspects (the list), `slots` is `none` when the field is absent. -/
structure IntentDefinition where
  name : String
  patterns : List String
  description : String
  skillHandler : String
  slots : Option (List String)
deriving Repr, DecidableEq

/-- Result of a `SlotValidator` call: JavaScript `true`, `false`, or a string. -/
inductive ValRes where
  | vtrue
  | vfalse
  | vstr (s : String)

/-- `SlotDefinition` of configSchema.ts. `validate` is the optional custom
validator; `Except.error` models the validator throwing. -/
structure SlotDefinition where
  name : String
  message : String
  type : String
  choices : Option (List String)
  validate : Option (String → Except Unit ValRes)

/-- A value of the `skills` object: a handler function, or a non-function
value (checked by `typeof skillHandler !== 'function'`). The handler returns
`Except.error` when it throws. -/
inductive SkillVal where
  | fn (h : FieldMap → Except Unit String)
  | notFn

def SkillVal.isFunction : SkillVal → Bool
  | .fn _ => true
  | .notFn => false

/-- `PromptTemplates`: `slotExtraction` is `none` when the section is absent. -/
structure PromptTemplates where
  intentDetection : String
  slotExtraction : Option (List (String × String))

/-- `DomainConfig` of configSchema.ts. -/
structure DomainConfig where
  metadata : Metadata
  intents : List IntentDefinition
  slots : List (String × List SlotDefinition)
  prompts : PromptTemplates
  skills : List (String × SkillVal)

/-- `ConfigValidationResult` of configSchema.ts. -/
structure ConfigValidationResult where
  isValid : Bool
  errors : List String
  warnings : List String
deriving Repr, DecidableEq

/-- `intent.slots` after the validator's defaulting; reading an absent list
yields the empty list. -/
def intentSlotList (i : IntentDefinition) : List String :=
  i.slots.getD []

/-- The in-place defaulting `intent.slots = []` of `validateIntents`. -/
def mutIntent (i : IntentDefinition) : IntentDefinition :=
  match i.slots with
  | none => { i with slots := some [] }
  | some _ => i

/-- One intent's error list inside the `validateIntents` loop, in source
order: duplicate name, missing name, missing patterns, missing skill handler. -/
def intentErrors (seen : List String) (i : IntentDefinition) : List String :=
  (if seen.contains i.name then ["Duplicate intent name: " ++ i.name] else [])
    ++ (if i.name = "" then ["Intent name is required"] else [])
    ++ (if i.patterns.isEmpty then
          ["Intent " ++ i.name ++ " must have at least one pattern"] else [])
    ++ (if i.skillHandler = "" then
          ["Intent " ++ i.name ++ " must specify a skill handler"] else [])

/-- One intent's warning list inside the `validateIntents` loop. -/
def intentWarnings (i : IntentDefinition) : List String :=
  if i.description = "" then ["Intent " ++ i.name ++ " should have a description"] else []

/-- The `validateIntents` loop, carrying the `intentNames` set. -/
def validateIntentsLoop : List IntentDefinition → List String → List String × List String
  | [], _ => ([], [])
  | i :: rest, seen =>
    let (es, ws) := validateIntentsLoop rest (seen ++ [i.name])
    (intentErrors seen i ++ es, intentWarnings i ++ ws)

/-- The recommended-system-intents warnings of `validateIntents`. -/
def systemIntentWarnings (names : List String) : List String :=
  (["greet", "exit", "unknown"].filter (fun s => !(names.contains s))).map
    (fun s => "System intent '" ++ s ++ "' is recommended")

/-- `ConfigLoader.validateIntents`: errors and warnings. The in-place slot
defaulting is returned by `validateConfig` as the mutated intent list. -/
def validateIntents (intents : List IntentDefinition) : List String × List String :=
  let (es, ws) := validateIntentsLoop intents []
  (es, ws ++ systemIntentWarnings (intents.map (fun i => i.name)))

/-- One slot's error list inside the `validateSlots` group loop, in source
order: duplicate name, missing name, missing message, invalid type, list
slot without choices. -/
def slotErrors (intentName : String) (seen : List String) (s : SlotDefinition) : List String :=
  (if seen.contains s.name then
      ["Duplicate slot name '" ++ s.name ++ "' in intent '" ++ intentName ++ "'"] else [])
    ++ (if s.name = "" then
          ["Slot in intent '" ++ intentName ++ "' is missing name"] else [])
    ++ (if s.message = "" then
          ["Slot '" ++ s.name ++ "' in intent '" ++ intentName ++ "' is missing message"] else [])
    ++ (if !(["input", "list"].contains s.type) then
          ["Slot '" ++ s.name ++ "' has invalid type: " ++ s.type] else [])
    ++ (if s.type = "list" && (s.choices.getD []).isEmpty then
          ["List slot '" ++ s.name ++ "' must have choices"] else [])

/-- The per-group slot loop of `validateSlots`, carrying the `slotNames` set. -/
def slotGroupLoop (intentName : String) : List SlotDefinition → List String → List String
  | [], _ => []
  | s :: rest, seen => slotErrors intentName seen s ++ slotGroupLoop intentName rest (seen ++ [s.name])

/-- `ConfigLoader.validateSlots`: (errors, warnings). -/
def validateSlots (slots : List (String × List SlotDefinition))
    (intents : List IntentDefinition) : List String × List String :=
  let intentNames := intents.map (fun i => i.name)
  let groupErrs := slots.flatMap (fun g => slotGroupLoop g.1 g.2 [])
  let orphanWarns := (slots.filter (fun g => !(intentNames.contains g.1))).map
    (fun g => "Slot group '" ++ g.1 ++ "' has no corresponding intent")
  let missingDefWarns := (intents.filter
      (fun i => !(intentSlotList i).isEmpty && !(hasKey slots i.name))).map
    (fun i => "Intent '" ++ i.name ++ "' declares slots but has no slot definitions")
  (groupErrs, orphanWarns ++ missingDefWarns)

/-- `ConfigLoader.validatePrompts`: (errors, warnings, mutated prompts); the
mutation is the in-place defaulting `prompts.slotExtraction = {}`. -/
def validatePrompts (prompts : PromptTemplates) (intents : List IntentDefinition) :
    List String × List String × PromptTemplates :=
  let errs := if prompts.intentDetection = "" then ["Intent detection prompt is required"] else []
  let se := prompts.slotExtraction.getD []
  let warns := (intents.filter (fun i =>
      !(intentSlotList i).isEmpty &&
        (match alookup se i.name with
         | none => true
         | some p => p = ""))).map
    (fun i => "Intent '" ++ i.name ++ "' has slots but no slot extraction prompt")
  (errs, warns, { prompts with slotExtraction := some se })

/-- The names registered in the `skills` object. -/
def skillNames (skills : List (String × SkillVal)) : List String :=
  skills.map (fun p => p.1)

/-- `ConfigLoader.validateSkills`: errors. The `!skills` guard of the source
cannot fire here because the typed `skills` field is always an object. -/
def validateSkills (skills : List (String × SkillVal))
    (intents : List IntentDefinition) : List String :=
  (intents.filter (fun i => !((skillNames skills).contains i.skillHandler))).map
    (fun i => "Intent '" ++ i.name ++ "' references non-existent skill '" ++ i.skillHandler ++ "'")
    ++ (skills.filter (fun p => !p.2.isFunction)).map
      (fun p => "Skill '" ++ p.1 ++ "' must be a function")

/-- `ConfigLoader.validateConfig`. The first component is the returned
`ConfigValidationResult`; the second is the config object after the call
(the source mutates `intent.slots` and `prompts.slotExtraction` in place). -/
def validateConfig (c : DomainConfig) : ConfigValidationResult × DomainConfig :=
  let metaErrs := (if c.metadata.name = "" then ["Domain name is required"] else [])
    ++ (if c.metadata.version = "" then ["Domain version is required"] else [])
  let metaWarns := if c.metadata.description = "" then ["Domain description is recommended"] else []
  let intentPair :=
    if c.intents.isEmpty then (["At least one intent is required"], ([] : List String))
    else validateIntents c.intents
  let intents' := c.intents.map mutIntent
  let slotPair := validateSlots c.slots intents'
  let promptTriple := validatePrompts c.prompts intents'
  let skillErrs := validateSkills c.skills intents'
  let errors := metaErrs ++ intentPair.1 ++ slotPair.1 ++ promptTriple.1 ++ skillErrs
  let warnings := metaWarns ++ intentPair.2 ++ slotPair.2 ++ promptTriple.2.1
  ({ isValid := errors.isEmpty, errors := errors, warnings := warnings },
   { c with intents := intents', prompts := promptTriple.2.2 })

/-- `RuntimeConfig`: the (post-validation) config plus the validation outcome
(`loadedAt` is omitted: nothing in the core reads it). -/
structure RuntimeConfig where
  config : DomainConfig
  isValid : Bool
  validationResult : ConfigValidationResult

/-- The private state of a `ConfigLoader`. -/
structure LoaderState where
  loadedConfigs : List (String × RuntimeConfig)
  currentConfig : Option RuntimeConfig

/-- `ConfigLoader.loadConfig`: validates, stores the runtime config keyed by
name regardless of validity, and moves `currentConfig` only when valid. -/
def loadConfig (st : LoaderState) (c : DomainConfig) : RuntimeConfig × LoaderState :=
  let res := (validateConfig c).1
  let c' := (validateConfig c).2
  let rc : RuntimeConfig := { config := c', isValid := res.isValid, validationResult := res }
  (rc,
   { loadedConfigs := setA st.loadedConfigs c.metadata.name rc,
     currentConfig := if res.isValid then some rc else st.currentConfig })

/-- `ConfigLoader.switchToConfig`: succeeds only for a loaded, valid config. -/
def switchToConfig (st : LoaderState) (domainName : String) : LoaderState × Bool :=
  match alookup st.loadedConfigs domainName with
  | some rc => if rc.isValid then ({ st with currentConfig := some rc }, true) else (st, false)
  | none => (st, false)

/-- JavaScript `s.trim()`: strip whitespace from both ends, computed on the
character list. -/
def jsTrim (s : String) : String :=
  String.mk (((s.data.dropWhile Char.isWhitespace).reverse.dropWhile Char.isWhitespace).reverse)

/-- `GenericSlotExtractor.validateSlotValue`: `none` models the source
returning `null` (the field is then dropped). Non-string extracted values are
out of scope of the embedding: candidates are strings or null/undefined, so
`String(value)` is the string itself. A `list` slot with a (possibly empty)
`choices` array takes the enumeration branch; otherwise the custom validator
runs, accepting only a literal `true`; a throwing validator is caught and the
value rejected. Kept values are the trimmed string. -/
def validateSlotValue (sd : SlotDefinition) (v : Value) : Option String :=
  match v with
  | none => none
  | some s =>
    if s = "" then none
    else
      let sv := jsTrim s
      if sd.type == "list" && sd.choices.isSome then
        if (sd.choices.getD []).contains sv then some sv else none
      else
        match sd.validate with
        | some f =>
          match f sv with
          | .ok .vtrue => some sv
          | .ok .vfalse => none
          | .ok (.vstr _) => none
          | .error _ => none
        | none => some sv

/-- One iteration of the `validateAndCleanSlots` loop: an unknown slot is
kept as-is, a validated value is kept cleaned, a rejected value drops the
field (`none`). -/
def cleanEntry (defs : List SlotDefinition) (kv : String × Value) : Option (String × Value) :=
  match defs.find? (fun d => d.name == kv.1) with
  | none => some kv
  | some sd =>
    match validateSlotValue sd kv.2 with
    | some cv => some (kv.1, some cv)
    | none => none

/-- `GenericSlotExtractor.validateAndCleanSlots`: with no definitions for the
intent the map is returned as-is; otherwise each extracted field is kept
unchanged when its slot is unknown, kept with its cleaned value when
validation passes, and dropped when validation rejects it. -/
def validateAndCleanSlots (slotDefs : Option (List SlotDefinition))
    (extractedSlots : FieldMap) : FieldMap :=
  match slotDefs with
  | none => extractedSlots
  | some defs => extractedSlots.filterMap (cleanEntry defs)

/-- The private state of the `GenericIntentDetector` singleton. -/
structure DetectorState where
  promptTemplate : Option String
  validIntents : List String

/-- The body of `detectIntent` after initialization: the model call's outcome
is `modelResp` (`Except.error` when the underlying call throws, which the
source catches, degrading to `unknown`). -/
def detectorRun (validIntents : List String) (modelResp : Except Unit String) : String :=
  match modelResp with
  | .error _ => "unknown"
  | .ok r =>
    let intent := (jsTrim r).toLower
    if validIntents.contains intent then intent else "unknown"

/-- `GenericIntentDetector.detectIntent`. The auto-initialization happens
before the try block: with no template and no current config the source
throws (`Except.error`), and `initialize` throws on an invalid config. -/
def detectIntent (st : DetectorState) (current : Option RuntimeConfig)
    (modelResp : Except Unit String) : Except Unit String :=
  match st.promptTemplate with
  | some _ => .ok (detectorRun st.validIntents modelResp)
  | none =>
    match current with
    | none => .error ()
    | some rc =>
      if rc.isValid then
        .ok (detectorRun (rc.config.intents.map (fun i => i.name)) modelResp)
      else .error ()

/-- Modelled from the spec: `SlotCollectionState` of the conversation store
(src/core/conversationMemory.ts is not among the repository's files; only its
test and callers are): target intent, the required-slot list fixed when
collection started, the accumulator of collected slots, and the recomputed
missing-slot list. `attemptsPerSlot`/`maxAttempts` are omitted: no claim and
no caller in the sources reads them. -/
structure SlotCollectionState where
  targetIntent : String
  requiredSlots : List String
  collectedSlots : FieldMap
  missingSlots : List String

/-- Modelled from the spec: the passively inferred `UserPreferences` fields
the orchestrator reads (time-of-day, deduplicated preferred days). -/
structure Preferences where
  preferredTimeOfDay : Value
  preferredDays : List String

/-- Modelled from the spec: the derived `ConversationContext` fields the
orchestrator reads (entity mentions, bounded conversation flow, last intent,
current topic). -/
structure ContextState where
  lastIntent : Option String
  currentTopic : Option String
  entityMentions : FieldMap
  conversationFlow : List String

/-- One session's store-held state as the orchestrator sees it through
`getContext` / `getPreferences` / `getSlotCollectionState`; `none` components
model the store's null answers for an unknown session. -/
structure MemState where
  context : Option ContextState
  preferences : Option Preferences
  slotCollection : Option SlotCollectionState

/-- Modelled from the spec: `conversationFlow` is a bounded ring of the last
10 intent names, pushed and trimmed with the oldest evicted first. -/
def pushFlow (flow : List String) (intent : String) : List String :=
  let f := flow ++ [intent]
  f.drop (f.length - 10)

/-- Modelled from the spec: `startSlotCollection` initializes
`collectedSlots = {}` and `missingSlots = requiredSlots`. -/
def startSlotCollection (intent : String) (requiredSlots : List String) : SlotCollectionState :=
  { targetIntent := intent, requiredSlots := requiredSlots,
    collectedSlots := [], missingSlots := requiredSlots }

/-- Modelled from the spec: the merge step of `updateSlotCollection` — only
truthy (non-null, non-undefined, non-empty) values are merged into the
accumulator. -/
def mergeTruthy (base : FieldMap) (slots : FieldMap) : FieldMap :=
  slots.foldl (fun acc kv => if truthy kv.2 then setA acc kv.1 kv.2 else acc) base

/-- Modelled from the spec: `updateSlotCollection` merges non-empty values
into `collectedSlots` (silently dropping null/undefined/empty-string values,
never throwing — the function is total) and recomputes `missingSlots` as the
required slots whose key is still absent from `collectedSlots`. -/
def updateSlotCollection (sc : SlotCollectionState) (slots : FieldMap) : SlotCollectionState :=
  let collected := mergeTruthy sc.collectedSlots slots
  { sc with
    collectedSlots := collected,
    missingSlots := sc.requiredSlots.filter (fun s => !(hasKey collected s)) }

/-- Modelled from the spec: `completeSlotCollection` clears the in-progress
state and appends the `slot_collection_complete` marker to the flow. -/
def completeSlotCollection (m : MemState) : MemState :=
  { m with
    slotCollection := none,
    context := m.context.map (fun c =>
      { c with conversationFlow := pushFlow c.conversationFlow "slot_collection_complete" }) }

/-- The intents the spec excludes from `currentTopic` (greeting/exit/unknown). -/
def trivialIntent (intent : String) : Bool :=
  ["greet", "exit", "unknown"].contains intent

/-- The passive preference-inference rules of `addTurn` (keyword heuristics
on the turn's slot values), taken as an opaque post-turn hook: the spec
specifies them as a pluggable best-effort enrichment, and no claim depends
on the keyword tables. -/
abbrev PrefHook := Option Preferences → FieldMap → Option Preferences

/-- Modelled from the spec: `addTurn` is a no-op for an unknown session;
otherwise it recomputes `lastIntent`, `currentTopic` (only for non-trivial
intents), merges the turn's resolved slots into `entityMentions`, pushes the
intent onto the bounded `conversationFlow`, and applies passive preference
inference (the `infer` hook). -/
def addTurn (m : MemState) (infer : PrefHook) (intent : String) (slots : FieldMap) : MemState :=
  match m.context with
  | none => m
  | some c =>
    { m with
      context := some
        { lastIntent := some intent,
          currentTopic := if trivialIntent intent then c.currentTopic else some intent,
          entityMentions := mergeF c.entityMentions slots,
          conversationFlow := pushFlow c.conversationFlow intent },
      preferences := infer m.preferences slots }

/-- Modelled from the spec: a fresh session's context is seeded with
`conversationFlow = ["session_start"]`, empty history and empty preferences. -/
def freshSessionMem : MemState :=
  { context := some
      { lastIntent := none, currentTopic := none, entityMentions := [],
        conversationFlow := ["session_start"] },
    preferences := some { preferredTimeOfDay := none, preferredDays := [] },
    slotCollection := none }

/-- The per-intent-and-slot lookup table of
`GenericOrchestrator.generateSlotFollowUpQuestion`. -/
def followUpTable : List (String × List (String × String)) :=
  [("schedule_appointment",
     [("service", "What type of service would you like to schedule?"),
      ("date", "What date would you prefer for your appointment?"),
      ("time", "What time works best for you?"),
      ("doctor", "Which doctor would you like to see?"),
      ("phone", "Could you please provide your phone number?")]),
   ("cancel_appointment",
     [("confirmation_id",
       "Could you please provide your appointment confirmation ID (e.g., APT-123456)?")]),
   ("check_availability",
     [("service", "What type of service are you looking for?"),
      ("date", "What date would you like to check availability for?")]),
   ("loan_inquiry",
     [("amount", "How much would you like to borrow?"),
      ("purpose", "What is the loan for?"),
      ("income", "What is your annual income?")]),
   ("balance_check",
     [("account_type", "Which account would you like to check? (checking, savings, credit)")]),
   ("transaction_history",
     [("account_type", "Which account's history would you like to see?"),
      ("date_range", "What time period would you like to see? (Last 30 days, Last 3 months, etc.)")]),
   ("symptom_check",
     [("symptoms", "Could you describe your symptoms in more detail?"),
      ("duration", "How long have you been experiencing these symptoms?")]),
   ("prescription_refill",
     [("medication", "Which medication do you need refilled?"),
      ("pharmacy", "Which pharmacy would you like to use?")])]

/-- JavaScript `s.replace('_', ' ')` on the character list: only the first
underscore is replaced. -/
def replaceFirstChar : List Char → List Char
  | [] => []
  | c :: cs => if c = '_' then ' ' :: cs else c :: replaceFirstChar cs

/-- JavaScript `slotName.replace('_', ' ')`: a string pattern replaces only
the first occurrence. -/
def replaceFirstUnderscore (s : String) : String :=
  String.mk (replaceFirstChar s.data)

/-- The generic fallback phrasing of `generateSlotFollowUpQuestion`. -/
def genericFollowUp (slotName : String) : String :=
  "Could you please provide your " ++ replaceFirstUnderscore slotName ++ "?"

/-- `GenericOrchestrator.generateSlotFollowUpQuestion`: the table entry when
present and truthy (all registered phrasings are non-empty), else the generic
fallback. -/
def generateSlotFollowUpQuestion (slotName : String) (intent : String) : String :=
  match alookup followUpTable intent with
  | some intentQuestions =>
    match alookup intentQuestions slotName with
    | some q => if q != "" then q else genericFollowUp slotName
    | none => genericFollowUp slotName
  | none => genericFollowUp slotName

/-- `requiredSlots.filter(slot => !extractedSlots[slot] || extractedSlots[slot] === '')`. -/
def computeMissing (requiredSlots : List String) (m : FieldMap) : List String :=
  requiredSlots.filter (fun s => !(truthyAt m s))

/-- The record returned by `handleSlotCollection`. -/
structure HandleResult where
  finalSlots : FieldMap
  needsMoreInfo : Bool
  followUpMessage : Option String

/-- `GenericOrchestrator.handleSlotCollection`: the returned record plus the
conversation store's state after the call. -/
def handleSlotCollection (intents : List IntentDefinition) (intent : String)
    (extractedSlots : FieldMap) (mem : MemState) : HandleResult × MemState :=
  match intents.find? (fun i => i.name == intent) with
  | none => ({ finalSlots := extractedSlots, needsMoreInfo := false, followUpMessage := none }, mem)
  | some intentConfig =>
    let requiredSlots := intentSlotList intentConfig
    if requiredSlots.isEmpty then
      ({ finalSlots := extractedSlots, needsMoreInfo := false, followUpMessage := none }, mem)
    else
      let missingSlots := computeMissing requiredSlots extractedSlots
      if missingSlots.isEmpty then
        let mem' := if mem.slotCollection.isSome then completeSlotCollection mem else mem
        ({ finalSlots := extractedSlots, needsMoreInfo := false, followUpMessage := none }, mem')
      else
        let mem1 :=
          if mem.slotCollection.isNone then
            { mem with slotCollection := some (startSlotCollection intent requiredSlots) }
          else mem
        let mem2 := { mem1 with
          slotCollection := mem1.slotCollection.map (fun sc => updateSlotCollection sc extractedSlots) }
        let nextSlot := missingSlots.headD ""
        ({ finalSlots := extractedSlots, needsMoreInfo := true,
           followUpMessage := some (generateSlotFollowUpQuestion nextSlot intent) }, mem2)

/-- Stage one of `extractSlotsWithContext`: in slot-collection mode the
already-collected slots are the base and the fresh extraction overrides them
(`{...collectedSlots, ...extractedSlots}`). -/
def applyCollected (scState : Option SlotCollectionState) (extractedSlots : FieldMap) : FieldMap :=
  match scState with
  | some sc => mergeF sc.collectedSlots extractedSlots
  | none => extractedSlots

/-- Stage two of `extractSlotsWithContext`: passive preferences backfill the
`time` and `date` fields when those are still falsy. -/
def applyPreferences (preferences : Option Preferences) (m : FieldMap) : FieldMap :=
  match preferences with
  | none => m
  | some p =>
    let m1 := if !(truthyAt m "time") && truthy p.preferredTimeOfDay then
        setA m "time" p.preferredTimeOfDay
      else m
    if !(truthyAt m1 "date") && !p.preferredDays.isEmpty then
      setA m1 "date" (some (p.preferredDays.headD ""))
    else m1

/-- The entity-mention backfill loop of `extractSlotsWithContext`: a field
that is still falsy takes the remembered value when that value is truthy. -/
def entityFold (ents : FieldMap) (m : FieldMap) : FieldMap :=
  ents.foldl
    (fun acc kv => if !(truthyAt acc kv.1) && truthy kv.2 then setA acc kv.1 kv.2 else acc) m

/-- Stage three of `extractSlotsWithContext`: entity mentions from the session
history backfill fields that are still falsy, when the remembered value is
truthy. -/
def applyEntities (context : Option ContextState) (m : FieldMap) : FieldMap :=
  match context with
  | none => m
  | some c => entityFold c.entityMentions m

/-- `GenericOrchestrator.extractSlotsWithContext` on the extractor's raw
result. -/
def extractSlotsWithContext (extractedSlots : FieldMap) (scState : Option SlotCollectionState)
    (preferences : Option Preferences) (context : Option ContextState) : FieldMap :=
  applyEntities context (applyPreferences preferences (applyCollected scState extractedSlots))

/-- Calling a value of the `skills` object; calling a non-function throws. -/
def runSkill (v : SkillVal) (m : FieldMap) : Except Unit String :=
  match v with
  | .fn h => h m
  | .notFn => .error ()

/-- `GenericOrchestrator.getUnknownIntentResponse`: the configured `unknown`
handler when present (its own failure is caught), else the static fallback. -/
def getUnknownIntentResponse (skills : List (String × SkillVal)) : String :=
  match alookup skills "unknown" with
  | some h =>
    match runSkill h [] with
    | .ok r => r
    | .error _ => "I'm sorry, I didn't understand that. Could you please rephrase your request?"
  | none => "I'm sorry, I didn't understand that. Could you please rephrase your request?"

/-- `GenericOrchestrator.executeSkill`: unknown intent goes to the unknown
path, a missing handler yields the unavailable message, and a throwing
handler is caught at the invocation boundary. -/
def executeSkill (intents : List IntentDefinition) (skills : List (String × SkillVal))
    (intent : String) (extractedSlots : FieldMap) : String :=
  match intents.find? (fun i => i.name == intent) with
  | none => getUnknownIntentResponse skills
  | some intentConfig =>
    match alookup skills intentConfig.skillHandler with
    | none => "Sorry, I can't handle that request right now. The service is temporarily unavailable."
    | some h =>
      match runSkill h extractedSlots with
      | .ok r => r
      | .error _ => "Sorry, I encountered an error while processing your request. Please try again."

/-- `GenericOrchestrator.getErrorResponse`. -/
def errorResponse : String :=
  "Sorry, I encountered an error while processing your request. Please try again in a moment."

/-- The outcomes of the two external capability calls made while processing
one message, and the store's passive-inference hook: `Except.error` models
the underlying call throwing. -/
structure Ports where
  detect : Except Unit String
  extract : String → Except Unit FieldMap
  infer : PrefHook

/-- The try-block of `GenericOrchestrator.processMessage` (steps 1-5): an
`Except.error` is an exception reaching the orchestration boundary. -/
def processBody (cfg : RuntimeConfig) (ports : Ports) (mem : MemState) :
    Except Unit (String × MemState) :=
  match ports.detect with
  | .error e => .error e
  | .ok detectedIntent =>
    match ports.extract detectedIntent with
    | .error e => .error e
    | .ok rawSlots =>
      let extractedSlots :=
        extractSlotsWithContext rawSlots mem.slotCollection mem.preferences mem.context
      let pr := handleSlotCollection cfg.config.intents detectedIntent extractedSlots mem
      let response :=
        if pr.1.needsMoreInfo && (pr.1.followUpMessage.getD "") != "" then
          pr.1.followUpMessage.getD ""
        else executeSkill cfg.config.intents cfg.config.skills detectedIntent pr.1.finalSlots
      .ok (response, addTurn pr.2 ports.infer detectedIntent pr.1.finalSlots)

/-- `GenericOrchestrator.processMessage`: the no-config guard, then the try
block with the catch converting any exception into the generic error
response (no store mutation has happened when the body throws: the only
throwing steps run before the store is touched). -/
def processMessage (cfg : Option RuntimeConfig) (ports : Ports) (mem : MemState) :
    String × MemState :=
  match cfg with
  | none => ("❌ No domain configuration loaded. Please load a domain first.", mem)
  | some rc =>
    match processBody rc ports mem with
    | .ok r => r
    | .error _ => (errorResponse, mem)

/-! Concrete configurations and states used by the claim theorems. -/

/-- A well-formed config except that `intent.slots` and
`prompts.slotExtraction` are absent. -/
def c10Config : DomainConfig :=
  { metadata := { name := "demo", version := "1.0", description := "demo domain" },
    intents := [{ name := "greet", patterns := ["hi"], description := "greeting",
                  skillHandler := "greetSkill", slots := none }],
    slots := [],
    prompts := { intentDetection := "detect the intent", slotExtraction := none },
    skills := [("greetSkill", .fn (fun _ => .ok "Hello!"))] }

/-- A config whose only flaw is a missing `metadata.version`; every intent's
skill handler is registered. -/
def c1NoVersionConfig : DomainConfig :=
  { metadata := { name := "demo", version := "", description := "demo domain" },
    intents := [{ name := "greet", patterns := ["hi"], description := "greeting",
                  skillHandler := "greetSkill", slots := some [] }],
    slots := [],
    prompts := { intentDetection := "detect the intent", slotExtraction := some [] },
    skills := [("greetSkill", .fn (fun _ => .ok "Hello!"))] }

/-- A loaded, valid runtime config with a zero-slot `greet` intent and a
one-slot `schedule_appointment` intent. -/
def c3GreetConfig : RuntimeConfig :=
  { config :=
      { metadata := { name := "appointments", version := "1.0", description := "appointments" },
        intents :=
          [{ name := "greet", patterns := ["hi"], description := "greeting",
             skillHandler := "greetSkill", slots := some [] },
           { name := "schedule_appointment", patterns := ["book"], description := "scheduling",
             skillHandler := "scheduleSkill", slots := some ["service"] }],
        slots := [],
        prompts := { intentDetection := "detect the intent", slotExtraction := some [] },
        skills := [("greetSkill", .fn (fun _ => .ok "Hello!")),
                   ("scheduleSkill", .fn (fun _ => .ok "Scheduled."))] },
    isValid := true,
    validationResult := { isValid := true, errors := [], warnings := [] } }

/-- A session mid slot-collection for `schedule_appointment`. -/
def c3ActiveMem : MemState :=
  { context := some
      { lastIntent := some "schedule_appointment", currentTopic := some "schedule_appointment",
        entityMentions := [], conversationFlow := ["session_start", "schedule_appointment"] },
    preferences := some { preferredTimeOfDay := none, preferredDays := [] },
    slotCollection := some (startSlotCollection "schedule_appointment" ["service"]) }

/-- Ports for a turn classified `greet` that extracts nothing. -/
def c3Ports : Ports :=
  { detect := .ok "greet", extract := fun _ => .ok [], infer := fun p _ => p }

/-- The intent list of a domain whose intent is not in the follow-up table
and whose slot name has two underscores. -/
def c5Intents : List IntentDefinition :=
  [{ name := "book_visit", patterns := ["book"], description := "books a visit",
     skillHandler := "bookSkill", slots := some ["visit_start_day"] }]

/-- An enumerated slot definition with choices `["morning"]`. -/
def c8Defs : List SlotDefinition :=
  [{ name := "service", message := "Which service?", type := "list",
     choices := some ["morning"], validate := none }]

/-- The names `detectIntent` validates against: the initialized list, or the
names taken from the current config during auto-initialization. -/
def detectorIntentSet (st : DetectorState) (current : Option RuntimeConfig) : List String :=
  match st.promptTemplate with
  | some _ => st.validIntents
  | none =>
    match current with
    | some rc => rc.config.intents.map (fun i => i.name)
    | none => []

/-- Whether a detection outcome is a normal return of `unknown` or of a name
from the given set (false for a thrown exception). -/
def okFromIntentSet (res : Except Unit String) (names : List String) : Bool :=
  match res with
  | .ok r => r == "unknown" || names.contains r
  | .error _ => false

/-- The value `executeSkill` produces once the handler is found: the handler's
reply, or the caught-error reply when the handler throws. -/
def skillOutcome (hv : SkillVal) (m : FieldMap) : String :=
  match runSkill hv m with
  | .ok r => r
  | .error _ => "Sorry, I encountered an error while processing your request. Please try again."

/-- An intent whose skill handler name is registered nowhere. -/
def c1GhostIntent : IntentDefinition :=
  { name := "haunt", patterns := ["boo"], description := "haunting",
    skillHandler := "ghostSkill", slots := some [] }

/-- A config referencing the unregistered handler `ghostSkill`. -/
def c1MissingConfig : DomainConfig :=
  { metadata := { name := "demo", version := "1.0", description := "demo domain" },
    intents := [c1GhostIntent],
    slots := [],
    prompts := { intentDetection := "detect the intent", slotExtraction := some [] },
    skills := [("greetSkill", .fn (fun _ => .ok "Hello!"))] }

/-- The slot-collection state of the store's own test: one required slot. -/
def c2State : SlotCollectionState := startSlotCollection "test_intent" ["slot1"]

/-- The empty-update field map of the store's own test: a null, an undefined
and an empty-string value. -/
def c2Update : FieldMap := [("slot1", none), ("slot2", none), ("slot3", some "")]

/-- A session context whose conversation flow is already full (10 entries). -/
def c9FullMem : MemState :=
  { context := some
      { lastIntent := none, currentTopic := none, entityMentions := [],
        conversationFlow := ["a", "b", "c", "d", "e", "f", "g", "h", "i", "j"] },
    preferences := none,
    slotCollection := none }

/-- An initialized detector supporting only `greet`. -/
def c7ReadyDetector : DetectorState :=
  { promptTemplate := some "detect the intent", validIntents := ["greet"] }

/-- The loan-inquiry handler used by the processing witnesses. -/
def c3WHandler : SkillVal := .fn (fun _ => .ok "Here is your loan offer.")

/-- A loaded, valid runtime config with the two-slot `loan_inquiry` intent. -/
def c3WConfig : RuntimeConfig :=
  { config :=
      { metadata := { name := "banking", version := "1.0", description := "banking domain" },
        intents :=
          [{ name := "loan_inquiry", patterns := ["loan"], description := "loan inquiry",
             skillHandler := "loanSkill", slots := some ["amount", "purpose"] }],
        slots := [],
        prompts := { intentDetection := "detect the intent", slotExtraction := some [] },
        skills := [("loanSkill", c3WHandler)] },
    isValid := true,
    validationResult := { isValid := true, errors := [], warnings := [] } }

/-- Ports for a turn classified `loan_inquiry` extracting both loan slots. -/
def c3WPorts : Ports :=
  { detect := .ok "loan_inquiry",
    extract := fun _ => .ok [("amount", some "50000"), ("purpose", some "Car purchase")],
    infer := fun p _ => p }

/-- Ports whose extraction throws. -/
def c6WPorts : Ports :=
  { detect := .ok "loan_inquiry", extract := fun _ => .error (), infer := fun p _ => p }

/-- A collection already holding the loan amount. -/
def c4WState : SlotCollectionState :=
  { targetIntent := "loan_inquiry", requiredSlots := ["amount", "purpose"],
    collectedSlots := [("amount", some "50000")], missingSlots := ["purpose"] }

/-- Session preferences with an inferred time of day. -/
def c4WPrefs : Preferences := { preferredTimeOfDay := some "morning", preferredDays := [] }

/-- A session context remembering two entity mentions. -/
def c4WContext : ContextState :=
  { lastIntent := some "loan_inquiry", currentTopic := some "loan_inquiry",
    entityMentions := [("purpose", some "Home purchase"), ("doctor", some "Dr. Smith")],
    conversationFlow := ["session_start"] }

/-- The freshly extracted fields of the C4 witness turn. -/
def c4WRaw : FieldMap := [("purpose", some "Car purchase")]

/-- The partially extracted fields of the C5 witness turn. -/
def c5WExtracted : FieldMap := [("amount", some "30000")]

/-- A field map holding an invalid enumerated value and an unrelated field. -/
def c8WMap : FieldMap := [("service", some "evening"), ("note", some "call me")]

/-! General lemmas about the embedded operations. -/

theorem alookup_setA_self {α : Type} (m : List (String × α)) (k : String) (v : α) :
    alookup (setA m k v) k = some v := by
  induction m with
  | nil => simp [setA, alookup]
  | cons hd tl ih =>
    obtain ⟨k0, v0⟩ := hd
    by_cases h : k0 = k
    · simp [setA, alookup, h]
    · simp [setA, alookup, h, ih]

theorem alookup_setA_ne {α : Type} (m : List (String × α)) (k k' : String) (v : α)
    (h : k' ≠ k) : alookup (setA m k v) k' = alookup m k' := by
  induction m with
  | nil =>
    have hne : ¬ k = k' := fun e => h e.symm
    simp [setA, alookup, hne]
  | cons hd tl ih =>
    obtain ⟨k0, v0⟩ := hd
    by_cases hk : k0 = k
    · subst hk
      have hne : ¬ k0 = k' := fun e => h e.symm
      simp [setA, alookup, hne]
    · by_cases hk' : k0 = k'
      · subst hk'
        simp [setA, alookup, hk]
      · simp [setA, alookup, hk, hk', ih]

theorem alookup_eq_none_of_not_mem {α : Type} (m : List (String × α)) (k : String)
    (h : k ∉ m.map Prod.fst) : alookup m k = none := by
  induction m with
  | nil => rfl
  | cons hd tl ih =>
    obtain ⟨k0, v0⟩ := hd
    simp only [List.map_cons, List.mem_cons] at h
    push_neg at h
    have hne : ¬ k0 = k := fun e => h.1 e.symm
    simp [alookup, hne, ih h.2]

theorem alookup_mergeF (a b : FieldMap) (k : String)
    (hb : (b.map Prod.fst).Nodup) :
    alookup (mergeF a b) k =
      match alookup b k with
      | some v => some v
      | none => alookup a k := by
  induction b generalizing a with
  | nil => simp [mergeF, alookup]
  | cons hd tl ih =>
    obtain ⟨k0, v0⟩ := hd
    simp only [List.map_cons, List.nodup_cons] at hb
    have step : mergeF a ((k0, v0) :: tl) = mergeF (setA a k0 v0) tl := by
      simp [mergeF, List.foldl_cons]
    rw [step, ih _ hb.2]
    by_cases h : k0 = k
    · subst h
      have hnone : alookup tl k0 = none := alookup_eq_none_of_not_mem _ _ hb.1
      simp [alookup, hnone, alookup_setA_self]
    · cases htl : alookup tl k with
      | some v => simp [alookup, h, htl]
      | none => simp [alookup, h, htl, alookup_setA_ne _ _ _ _ (fun e => h e.symm)]

theorem isEmpty_false_of_mem {α : Type} {a : α} {l : List α} (h : a ∈ l) :
    l.isEmpty = false := by
  cases l with
  | nil => cases h
  | cons x xs => rfl

theorem mem_setA {α : Type} {m : List (String × α)} {k : String} {v : α} :
    ∀ p ∈ setA m k v, p ∈ m ∨ p = (k, v) := by
  induction m with
  | nil => intro p hp; simp [setA] at hp; exact Or.inr hp
  | cons hd tl ih =>
    obtain ⟨k0, v0⟩ := hd
    intro p hp
    by_cases hk : k0 = k
    · subst hk
      simp only [setA, beq_self_eq_true, if_true, List.mem_cons] at hp
      rcases hp with hp | hp
      · exact Or.inr hp
      · exact Or.inl (List.mem_cons_of_mem _ hp)
    · simp only [setA] at hp
      rw [if_neg (by simpa using hk)] at hp
      rcases List.mem_cons.mp hp with rfl | hp
      · exact Or.inl (by simp)
      · rcases ih p hp with h | h
        · exact Or.inl (List.mem_cons_of_mem _ h)
        · exact Or.inr h

theorem truthyAt_congr {a b : FieldMap} {k : String} (h : alookup a k = alookup b k) :
    truthyAt a k = truthyAt b k := by
  simp [truthyAt, h]

theorem filter_not_headD (l : List String) (p : String → Bool) (d : String) :
    (l.filter (fun x => !(p x))).headD d = (l.dropWhile p).headD d := by
  induction l with
  | nil => rfl
  | cons x xs ih =>
    by_cases hx : p x = true
    · have hf : List.filter (fun y => !(p y)) (x :: xs) = List.filter (fun y => !(p y)) xs := by
        simp [List.filter_cons, hx]
      have hd : List.dropWhile p (x :: xs) = List.dropWhile p xs := by
        simp [List.dropWhile_cons, hx]
      rw [hf, hd]
      exact ih
    · have hpx : p x = false := by revert hx; cases p x <;> simp
      have hf : List.filter (fun y => !(p y)) (x :: xs) = x :: List.filter (fun y => !(p y)) xs := by
        simp [List.filter_cons, hpx]
      have hd : List.dropWhile p (x :: xs) = x :: xs := by
        simp [List.dropWhile_cons, hpx]
      rw [hf, hd]
      rfl

theorem pushFlow_length_le (flow : List String) (intent : String) :
    (pushFlow flow intent).length ≤ 10 := by
  simp only [pushFlow, List.length_drop, List.length_append, List.length_cons,
    List.length_nil]
  omega

theorem pushFlow_of_full (flow : List String) (intent : String) (h : flow.length = 10) :
    pushFlow flow intent = flow.tail ++ [intent] := by
  simp only [pushFlow, List.length_append, List.length_cons, List.length_nil, h]
  rw [show 10 + 1 - 10 = 1 by omega, List.drop_append_of_le_length (by omega),
    List.drop_one]

theorem mutIntent_name (i : IntentDefinition) : (mutIntent i).name = i.name := by
  cases h : i.slots <;> simp [mutIntent, h]

theorem mutIntent_skillHandler (i : IntentDefinition) :
    (mutIntent i).skillHandler = i.skillHandler := by
  cases h : i.slots <;> simp [mutIntent, h]

theorem mem_validateSkills {skills : List (String × SkillVal)}
    {intents : List IntentDefinition} {i : IntentDefinition} (hi : i ∈ intents)
    (h : (skillNames skills).contains i.skillHandler = false) :
    ("Intent '" ++ i.name ++ "' references non-existent skill '" ++ i.skillHandler ++ "'")
      ∈ validateSkills skills intents := by
  unfold validateSkills
  apply List.mem_append_left
  refine List.mem_map_of_mem _ (List.mem_filter.mpr ⟨hi, ?_⟩)
  show (!((skillNames skills).contains i.skillHandler)) = true
  rw [h]
  rfl

theorem addTurn_slotCollection (m : MemState) (infer : PrefHook) (intent : String)
    (slots : FieldMap) : (addTurn m infer intent slots).slotCollection = m.slotCollection := by
  cases hc : m.context <;> simp [addTurn, hc]

theorem mergeTruthy_truthy (slots : FieldMap) :
    ∀ base : FieldMap, (∀ p ∈ base, truthy p.2 = true) →
      ∀ p ∈ mergeTruthy base slots, truthy p.2 = true := by
  induction slots with
  | nil => intro base hb p hp; exact hb p hp
  | cons kv tl ih =>
    intro base hb p hp
    have hstep : mergeTruthy base (kv :: tl)
        = mergeTruthy (if truthy kv.2 then setA base kv.1 kv.2 else base) tl := rfl
    rw [hstep] at hp
    refine ih _ ?_ p hp
    intro q hq
    by_cases hc : truthy kv.2 = true
    · rw [if_pos hc] at hq
      rcases mem_setA q hq with h | h
      · exact hb q h
      · rw [h]; exact hc
    · rw [if_neg hc] at hq
      exact hb q hq

theorem entityFold_alookup_of_truthy (ents : FieldMap) :
    ∀ (m : FieldMap) (k : String), truthyAt m k = true →
      alookup (entityFold ents m) k = alookup m k := by
  induction ents with
  | nil => intro m k _; rfl
  | cons kv tl ih =>
    intro m k h
    obtain ⟨k0, v0⟩ := kv
    have hstep : alookup (if !(truthyAt m k0) && truthy v0 then setA m k0 v0 else m) k
        = alookup m k := by
      by_cases hc : (!(truthyAt m k0) && truthy v0) = true
      · rw [if_pos hc]
        by_cases hk : k0 = k
        · subst hk; rw [h] at hc; simp at hc
        · exact alookup_setA_ne _ _ _ _ (fun e => hk e.symm)
      · rw [if_neg hc]
    have hrec : entityFold ((k0, v0) :: tl) m
        = entityFold tl (if !(truthyAt m k0) && truthy v0 then setA m k0 v0 else m) := rfl
    rw [hrec, ih _ k ((truthyAt_congr hstep).trans h), hstep]

theorem entityFold_alookup_of_not_mem (ents : FieldMap) :
    ∀ (m : FieldMap) (k : String), k ∉ ents.map Prod.fst →
      alookup (entityFold ents m) k = alookup m k := by
  induction ents with
  | nil => intro m k _; rfl
  | cons kv tl ih =>
    intro m k h
    obtain ⟨k0, v0⟩ := kv
    simp only [List.map_cons, List.mem_cons] at h
    push_neg at h
    have hstep : alookup (if !(truthyAt m k0) && truthy v0 then setA m k0 v0 else m) k
        = alookup m k := by
      by_cases hc : (!(truthyAt m k0) && truthy v0) = true
      · rw [if_pos hc]; exact alookup_setA_ne _ _ _ _ h.1
      · rw [if_neg hc]
    have hrec : entityFold ((k0, v0) :: tl) m
        = entityFold tl (if !(truthyAt m k0) && truthy v0 then setA m k0 v0 else m) := rfl
    rw [hrec, ih _ k h.2, hstep]

theorem entityFold_fills (ents : FieldMap) :
    ∀ (m : FieldMap) (k : String) (v : Value), (ents.map Prod.fst).Nodup →
      truthyAt m k = false → alookup ents k = some v → truthy v = true →
      alookup (entityFold ents m) k = some v := by
  induction ents with
  | nil => intro m k v _ _ he _; simp [alookup] at he
  | cons kv tl ih =>
    intro m k v hnd hm he hv
    obtain ⟨k0, v0⟩ := kv
    simp only [List.map_cons, List.nodup_cons] at hnd
    by_cases hk : k0 = k
    · subst hk
      have hv0 : v0 = v := by simpa [alookup] using he
      subst hv0
      have hc : (!(truthyAt m k0) && truthy v0) = true := by rw [hm, hv]; rfl
      have hrec : entityFold ((k0, v0) :: tl) m
          = entityFold tl (if !(truthyAt m k0) && truthy v0 then setA m k0 v0 else m) := rfl
      rw [hrec, if_pos hc, entityFold_alookup_of_not_mem tl _ k0 hnd.1, alookup_setA_self]
    · have he' : alookup tl k = some v := by
        rw [alookup, if_neg (by simpa using hk)] at he
        exact he
      have hstep : alookup (if !(truthyAt m k0) && truthy v0 then setA m k0 v0 else m) k
          = alookup m k := by
        by_cases hc : (!(truthyAt m k0) && truthy v0) = true
        · rw [if_pos hc]; exact alookup_setA_ne _ _ _ _ (fun e => hk e.symm)
        · rw [if_neg hc]
      have hrec : entityFold ((k0, v0) :: tl) m
          = entityFold tl (if !(truthyAt m k0) && truthy v0 then setA m k0 v0 else m) := rfl
      rw [hrec]
      exact ih _ k v hnd.2 ((truthyAt_congr hstep).trans hm) he' hv

theorem cleanEntry_key {defs : List SlotDefinition} {kv q : String × Value}
    (h : cleanEntry defs kv = some q) : q.1 = kv.1 := by
  cases hf : defs.find? (fun d => d.name == kv.1) with
  | none =>
    simp only [cleanEntry, hf] at h
    cases h; rfl
  | some sd =>
    simp only [cleanEntry, hf] at h
    cases hv : validateSlotValue sd kv.2 with
    | some cv => simp only [hv] at h; cases h; rfl
    | none => simp only [hv] at h; exact Option.noConfusion h

theorem keys_filterMap_cleanEntry {defs : List SlotDefinition} {l : FieldMap} {k : String}
    (h : k ∈ (l.filterMap (cleanEntry defs)).map Prod.fst) : k ∈ l.map Prod.fst := by
  simp only [List.mem_map, List.mem_filterMap] at h ⊢
  obtain ⟨q, ⟨p, hp, hg⟩, hk⟩ := h
  exact ⟨p, hp, by rw [← cleanEntry_key hg]; exact hk⟩

theorem alookup_clean (defs : List SlotDefinition) :
    ∀ (m : FieldMap), (m.map Prod.fst).Nodup → ∀ k,
      alookup (validateAndCleanSlots (some defs) m) k =
        match alookup m k with
        | none => none
        | some v =>
          match defs.find? (fun d => d.name == k) with
          | none => some v
          | some sd =>
            match validateSlotValue sd v with
            | some cv => some (some cv)
            | none => none := by
  intro m
  induction m with
  | nil => intro _ k; rfl
  | cons hd tl ih =>
    obtain ⟨k0, v0⟩ := hd
    intro hnd k
    simp only [List.map_cons, List.nodup_cons] at hnd
    have hclean : validateAndCleanSlots (some defs) ((k0, v0) :: tl)
        = match cleanEntry defs (k0, v0) with
          | none => validateAndCleanSlots (some defs) tl
          | some q => q :: validateAndCleanSlots (some defs) tl := by
      simp only [validateAndCleanSlots]
      rw [List.filterMap_cons]
      cases cleanEntry defs (k0, v0) <;> rfl
    have hlkc : alookup ((k0, v0) :: tl) k
        = if k0 == k then some v0 else alookup tl k := rfl
    by_cases hk : k0 = k
    · subst hk
      cases hf : defs.find? (fun d => d.name == k0) with
      | none =>
        have hce : cleanEntry defs (k0, v0) = some (k0, v0) := by
          simp only [cleanEntry, hf]
        rw [hclean, hce, hlkc]
        simp [alookup, hf]
      | some sd =>
        cases hv : validateSlotValue sd v0 with
        | some cv =>
          have hce : cleanEntry defs (k0, v0) = some (k0, some cv) := by
            simp only [cleanEntry, hf, hv]
          rw [hclean, hce, hlkc]
          simp [alookup, hf, hv]
        | none =>
          have hce : cleanEntry defs (k0, v0) = none := by
            simp only [cleanEntry, hf, hv]
          rw [hclean, hce, hlkc]
          simp only [beq_self_eq_true, eq_self_iff_true, if_true, hf, hv]
          exact alookup_eq_none_of_not_mem _ _
            (fun hmem => hnd.1 (keys_filterMap_cleanEntry hmem))
    · have hne : (k0 == k) = false := by simpa using hk
      rw [hclean, hlkc, hne]
      cases hce : cleanEntry defs (k0, v0) with
      | some q =>
        have hq1 : q.1 = k0 := cleanEntry_key hce
        have hskip : alookup (q :: validateAndCleanSlots (some defs) tl) k
            = alookup (validateAndCleanSlots (some defs) tl) k := by
          obtain ⟨q1, q2⟩ := q
          simp only [alookup]
          rw [if_neg (by simp only at hq1; rw [hq1]; simpa using hk)]
        simp only [Bool.false_eq_true, if_false]
        rw [hskip, ih hnd.2 k]
      | none =>
        simp only [Bool.false_eq_true, if_false]
        rw [ih hnd.2 k]

theorem alookup_filter_ne {α : Type} (m : List (String × α)) (k k' : String) (h : k' ≠ k) :
    alookup (m.filter (fun kv => !(kv.1 == k))) k' = alookup m k' := by
  induction m with
  | nil => rfl
  | cons hd tl ih =>
    obtain ⟨k0, v0⟩ := hd
    by_cases hk0 : k0 = k
    · subst hk0
      have hcond : (!((k0, v0).1 == k0)) = false := by simp
      rw [List.filter_cons, hcond]
      have hskip : alookup ((k0, v0) :: tl) k' = alookup tl k' := by
        simp only [alookup]
        rw [if_neg (by simpa using fun e => h e.symm)]
      rw [if_neg (by simp), hskip]
      exact ih
    · have hcond : (!((k0, v0).1 == k)) = true := by simpa using hk0
      rw [List.filter_cons, hcond, if_pos rfl]
      by_cases hk' : k0 = k'
      · subst hk'
        simp [alookup]
      · simp only [alookup]
        rw [if_neg (by simpa using hk'), if_neg (by simpa using hk')]
        exact ih

theorem genericFollowUp_ne_empty (s : String) : genericFollowUp s ≠ "" := by
  intro h
  have hl : (genericFollowUp s).length = 0 := by rw [h]; rfl
  rw [genericFollowUp, String.length_append, String.length_append] at hl
  have h1 : ("Could you please provide your ").length = 30 := by decide
  have h2 : ("?").length = 1 := by decide
  rw [h1, h2] at hl
  omega

theorem generateSlotFollowUpQuestion_ne_empty (s intent : String) :
    generateSlotFollowUpQuestion s intent ≠ "" := by
  unfold generateSlotFollowUpQuestion
  cases h1 : alookup followUpTable intent with
  | none => exact genericFollowUp_ne_empty s
  | some qs =>
    show (match alookup qs s with
          | some q => if q != "" then q else genericFollowUp s
          | none => genericFollowUp s) ≠ ""
    cases h2 : alookup qs s with
    | none => exact genericFollowUp_ne_empty s
    | some q =>
      show (if q != "" then q else genericFollowUp s) ≠ ""
      by_cases hq : (q != "") = true
      · rw [if_pos hq]
        simpa using hq
      · rw [if_neg hq]
        exact genericFollowUp_ne_empty s

theorem validateConfig_errors (c : DomainConfig) :
    (validateConfig c).1.errors =
      ((if c.metadata.name = "" then ["Domain name is required"] else [])
        ++ (if c.metadata.version = "" then ["Domain version is required"] else []))
      ++ (if c.intents.isEmpty then (["At least one intent is required"], ([] : List String))
          else validateIntents c.intents).1
      ++ (validateSlots c.slots (c.intents.map mutIntent)).1
      ++ (validatePrompts c.prompts (c.intents.map mutIntent)).1
      ++ validateSkills c.skills (c.intents.map mutIntent) := rfl

theorem validateConfig_isValid (c : DomainConfig) :
    (validateConfig c).1.isValid = (validateConfig c).1.errors.isEmpty := rfl

theorem loadConfig_currentConfig (st : LoaderState) (c : DomainConfig) :
    ((loadConfig st c).2).currentConfig =
      (if (validateConfig c).1.isValid then some (loadConfig st c).1 else st.currentConfig) := rfl

theorem processMessage_ok (rc : RuntimeConfig) (ports : Ports) (mem : MemState)
    (intent : String) (raw : FieldMap) (hr : HandleResult) (mem' : MemState)
    (hdet : ports.detect = .ok intent) (hext : ports.extract intent = .ok raw)
    (hhs : handleSlotCollection rc.config.intents intent
        (extractSlotsWithContext raw mem.slotCollection mem.preferences mem.context) mem
      = (hr, mem')) :
    processMessage (some rc) ports mem =
      ((if hr.needsMoreInfo && ((hr.followUpMessage.getD "") != "") then hr.followUpMessage.getD ""
        else executeSkill rc.config.intents rc.config.skills intent hr.finalSlots),
       addTurn mem' ports.infer intent hr.finalSlots) := by
  simp only [processMessage, processBody, hdet, hext, hhs]

theorem processMessage_detect_error (rc : RuntimeConfig) (ports : Ports) (mem : MemState)
    (h : ports.detect = .error ()) :
    processMessage (some rc) ports mem = (errorResponse, mem) := by
  simp [processMessage, processBody, h]

theorem processMessage_extract_error (rc : RuntimeConfig) (ports : Ports) (mem : MemState)
    (intent : String) (hdet : ports.detect = .ok intent)
    (hext : ports.extract intent = .error ()) :
    processMessage (some rc) ports mem = (errorResponse, mem) := by
  simp [processMessage, processBody, hdet, hext]

theorem handleSlotCollection_no_slots (intents : List IntentDefinition) (intent : String)
    (extracted : FieldMap) (mem : MemState) (ic : IntentDefinition)
    (hic : intents.find? (fun i => i.name == intent) = some ic)
    (hreq : intentSlotList ic = []) :
    handleSlotCollection intents intent extracted mem
      = ({ finalSlots := extracted, needsMoreInfo := false, followUpMessage := none }, mem) := by
  simp [handleSlotCollection, hic, hreq]

theorem handleSlotCollection_all_filled (intents : List IntentDefinition) (intent : String)
    (extracted : FieldMap) (mem : MemState) (ic : IntentDefinition)
    (hic : intents.find? (fun i => i.name == intent) = some ic)
    (hreq : intentSlotList ic ≠ [])
    (hmiss : computeMissing (intentSlotList ic) extracted = []) :
    handleSlotCollection intents intent extracted mem
      = ({ finalSlots := extracted, needsMoreInfo := false, followUpMessage := none },
         if mem.slotCollection.isSome then completeSlotCollection mem else mem) := by
  have hreq' : (intentSlotList ic).isEmpty = false := by
    cases h : intentSlotList ic with
    | nil => exact absurd h hreq
    | cons a l => rfl
  simp [handleSlotCollection, hic, hreq', hmiss]

theorem handleSlotCollection_missing (intents : List IntentDefinition) (intent : String)
    (extracted : FieldMap) (mem : MemState) (ic : IntentDefinition)
    (hic : intents.find? (fun i => i.name == intent) = some ic)
    (hmiss : computeMissing (intentSlotList ic) extracted ≠ []) :
    (handleSlotCollection intents intent extracted mem).1
      = { finalSlots := extracted, needsMoreInfo := true,
          followUpMessage := some (generateSlotFollowUpQuestion
            ((computeMissing (intentSlotList ic) extracted).headD "") intent) }
    ∧ ((handleSlotCollection intents intent extracted mem).2).slotCollection.isSome = true := by
  have hreq : (intentSlotList ic).isEmpty = false := by
    cases h : intentSlotList ic with
    | nil =>
      exfalso
      apply hmiss
      rw [computeMissing, h]
      rfl
    | cons a l => rfl
  have hmiss' : (computeMissing (intentSlotList ic) extracted).isEmpty = false := by
    cases h : computeMissing (intentSlotList ic) extracted with
    | nil => exact absurd h hmiss
    | cons a l => rfl
  cases hsc : mem.slotCollection with
  | none =>
    constructor
    · simp [handleSlotCollection, hic, hreq, hmiss', hsc]
    · simp [handleSlotCollection, hic, hreq, hmiss', hsc]
  | some sc =>
    constructor
    · simp [handleSlotCollection, hic, hreq, hmiss', hsc]
    · simp [handleSlotCollection, hic, hreq, hmiss', hsc]

theorem executeSkill_handler (intents : List IntentDefinition)
    (skills : List (String × SkillVal)) (intent : String) (m : FieldMap)
    (ic : IntentDefinition) (hv : SkillVal)
    (hic : intents.find? (fun i => i.name == intent) = some ic)
    (hskill : alookup skills ic.skillHandler = some hv) :
    executeSkill intents skills intent m = skillOutcome hv m := by
  simp only [executeSkill, hic, hskill, skillOutcome]

/-! Claim theorems. -/

/-- C10: validateConfig is not read-only on its argument: on a config with an
absent `intent.slots` and an absent `prompts.slotExtraction`, the config
object after validation differs from the one passed in, the intent's slots
field having been assigned the empty array and `prompts.slotExtraction` the
empty object. -/
theorem c10_validateConfig_mutates_argument :
    (validateConfig c10Config).2 ≠ c10Config
    ∧ (validateConfig c10Config).2.intents =
        [{ name := "greet", patterns := ["hi"], description := "greeting",
           skillHandler := "greetSkill", slots := some [] }]
    ∧ (validateConfig c10Config).2.prompts.slotExtraction = some [] := by
  refine ⟨?_, rfl, rfl⟩
  intro h
  have hse := congrArg (fun c => c.prompts.slotExtraction) h
  exact absurd hse (by decide)

/-- C7 counterexample: with the detector uninitialized and no current config,
`detectIntent` throws instead of returning a name, refuting the claim that it
never throws. -/
theorem c7_claim_counterexample :
    detectIntent { promptTemplate := none, validIntents := [] } none (.ok "hello")
      = .error () := rfl

/-- C5 counterexample: for an intent outside the lookup table and the missing
slot `visit_start_day`, the emitted follow-up keeps the second underscore
(JavaScript `replace` with a string pattern replaces only the first
occurrence), so it differs from the claimed phrasing with all underscores
replaced. -/
theorem c5_claim_counterexample :
    ((handleSlotCollection c5Intents "book_visit" [] freshSessionMem).1).followUpMessage
      = some "Could you please provide your visit start_day?"
    ∧ "Could you please provide your visit start_day?"
        ≠ "Could you please provide your visit start day?" := by
  exact ⟨rfl, by decide⟩

/-- C8 counterexample: the extracted value " morning" does not equal any
declared choice of the enumerated slot, yet the field is kept (with the
trimmed value), refuting the claim that such a field is dropped. -/
theorem c8_claim_counterexample :
    validateAndCleanSlots (some c8Defs) [("service", some " morning")]
      = [("service", some "morning")]
    ∧ (["morning"].contains " morning") = false := ⟨rfl, rfl⟩

/-- C1 counterexample: a config whose only flaw is a missing version fails
validation although every intent's skill handler is present in the skills
map, refuting the only-if direction of the claimed equivalence (the
handler-resolution check is not the only hard gate). -/
theorem c1_claim_counterexample :
    (validateConfig c1NoVersionConfig).1.isValid = false
    ∧ c1NoVersionConfig.intents.all
        (fun i => (skillNames c1NoVersionConfig.skills).contains i.skillHandler) = true :=
  ⟨rfl, rfl⟩

/-- C3 counterexample: a turn classified as the zero-slot intent `greet`
while a slot collection is active executes the greet skill yet leaves the
active collection in place, refuting the claim that an empty missingSlots
set always completes (clears) an active collection before the skill runs. -/
theorem c3_claim_counterexample :
    (processMessage (some c3GreetConfig) c3Ports c3ActiveMem).1 = "Hello!"
    ∧ ((processMessage (some c3GreetConfig) c3Ports c3ActiveMem).2.slotCollection).isSome
        = true := ⟨rfl, rfl⟩

/-- C1 (amended): whenever some intent's skill handler name is absent from
the config's skills map, validateConfig returns isValid = false with an error
naming the missing handler — one of several hard gates, not the only one —
and loadConfig leaves the current (active) configuration unchanged, so the
invalid config never becomes active. -/
theorem c1_missing_handler_gate (c : DomainConfig) (i : IntentDefinition)
    (hi : i ∈ c.intents)
    (hmiss : (skillNames c.skills).contains i.skillHandler = false) :
    (validateConfig c).1.isValid = false
    ∧ ("Intent '" ++ i.name ++ "' references non-existent skill '" ++ i.skillHandler ++ "'")
        ∈ (validateConfig c).1.errors
    ∧ ∀ st : LoaderState, ((loadConfig st c).2).currentConfig = st.currentConfig := by
  have hmut : mutIntent i ∈ c.intents.map mutIntent := List.mem_map_of_mem _ hi
  have hmiss' : (skillNames c.skills).contains (mutIntent i).skillHandler = false := by
    rw [mutIntent_skillHandler]; exact hmiss
  have herr := mem_validateSkills hmut hmiss'
  rw [mutIntent_name, mutIntent_skillHandler] at herr
  have herrs : ("Intent '" ++ i.name ++ "' references non-existent skill '"
      ++ i.skillHandler ++ "'") ∈ (validateConfig c).1.errors := by
    rw [validateConfig_errors]
    exact List.mem_append_right _ herr
  have hvalid : (validateConfig c).1.isValid = false := by
    rw [validateConfig_isValid]
    exact isEmpty_false_of_mem herrs
  refine ⟨hvalid, herrs, ?_⟩
  intro st
  rw [loadConfig_currentConfig, hvalid]
  simp

/-- C1 witness: the `ghostSkill` handler of `c1MissingConfig` is registered
nowhere, so validation fails naming it and loading never activates it. -/
theorem c1_missing_handler_gate_witness :
    (validateConfig c1MissingConfig).1.isValid = false
    ∧ ("Intent '" ++ c1GhostIntent.name ++ "' references non-existent skill '"
        ++ c1GhostIntent.skillHandler ++ "'") ∈ (validateConfig c1MissingConfig).1.errors
    ∧ ((loadConfig { loadedConfigs := [], currentConfig := none } c1MissingConfig).2).currentConfig
        = none := by
  obtain ⟨h1, h2, h3⟩ :=
    c1_missing_handler_gate c1MissingConfig c1GhostIntent (by decide) (by decide)
  exact ⟨h1, h2, h3 _⟩

/-- C2 (spec-modelled): updateSlotCollection is total (never throws), stores
no falsy (null/undefined/empty-string) value in collectedSlots, preserves the
required-slot list, and leaves missingSlots equal to requiredSlots minus the
keys of collectedSlots exactly. -/
theorem c2_updateSlotCollection_invariant (sc : SlotCollectionState) (slots : FieldMap)
    (hpre : ∀ p ∈ sc.collectedSlots, truthy p.2 = true) :
    (∀ p ∈ (updateSlotCollection sc slots).collectedSlots, truthy p.2 = true)
    ∧ (updateSlotCollection sc slots).requiredSlots = sc.requiredSlots
    ∧ (∀ s, s ∈ (updateSlotCollection sc slots).missingSlots ↔
        (s ∈ sc.requiredSlots
          ∧ hasKey (updateSlotCollection sc slots).collectedSlots s = false)) := by
  have hcoll : (updateSlotCollection sc slots).collectedSlots
      = mergeTruthy sc.collectedSlots slots := rfl
  have hmiss : (updateSlotCollection sc slots).missingSlots
      = sc.requiredSlots.filter
          (fun s => !(hasKey (mergeTruthy sc.collectedSlots slots) s)) := rfl
  refine ⟨?_, rfl, ?_⟩
  · rw [hcoll]
    exact mergeTruthy_truthy slots sc.collectedSlots hpre
  · intro s
    rw [hmiss, hcoll]
    constructor
    · intro hs
      have hsp := List.mem_filter.mp hs
      exact ⟨hsp.1, by simpa using hsp.2⟩
    · intro hsp
      exact List.mem_filter.mpr ⟨hsp.1, by simpa using hsp.2⟩

/-- C2 witness: the store test's empty update (null, undefined, empty string)
leaves the single required slot missing and stores nothing. -/
theorem c2_updateSlotCollection_invariant_witness :
    (updateSlotCollection c2State c2Update).requiredSlots = c2State.requiredSlots
    ∧ ("slot1" ∈ (updateSlotCollection c2State c2Update).missingSlots ↔
        ("slot1" ∈ c2State.requiredSlots
          ∧ hasKey (updateSlotCollection c2State c2Update).collectedSlots "slot1" = false)) := by
  obtain ⟨h1, h2, h3⟩ := c2_updateSlotCollection_invariant c2State c2Update (by decide)
  exact ⟨h2, h3 "slot1"⟩

/-- C9 (spec-modelled): over any sequence of addTurn calls from a fresh
session, conversationFlow never exceeds 10 entries, and a push onto a full
flow evicts the oldest entry first. -/
theorem c9_conversationFlow_bounded (infer : PrefHook) (turns : List (String × FieldMap)) :
    (∀ ctx, (turns.foldl (fun m t => addTurn m infer t.1 t.2) freshSessionMem).context = some ctx →
        ctx.conversationFlow.length ≤ 10)
    ∧ (∀ (m : MemState) (ctx : ContextState) (intent : String) (slots : FieldMap),
        m.context = some ctx → ctx.conversationFlow.length = 10 →
        ∃ ctx', (addTurn m infer intent slots).context = some ctx'
          ∧ ctx'.conversationFlow = ctx.conversationFlow.tail ++ [intent]) := by
  constructor
  · have aux : ∀ (ts : List (String × FieldMap)) (m : MemState),
        (∀ ctx, m.context = some ctx → ctx.conversationFlow.length ≤ 10) →
        ∀ ctx, (ts.foldl (fun m t => addTurn m infer t.1 t.2) m).context = some ctx →
          ctx.conversationFlow.length ≤ 10 := by
      intro ts
      induction ts with
      | nil => intro m hm ctx hc; exact hm ctx hc
      | cons t rest ih =>
        intro m hm ctx hc
        refine ih (addTurn m infer t.1 t.2) ?_ ctx hc
        intro ctx' hctx'
        cases hmc : m.context with
        | none =>
          have hsame : addTurn m infer t.1 t.2 = m := by simp [addTurn, hmc]
          rw [hsame, hmc] at hctx'
          exact Option.noConfusion hctx'
        | some c0 =>
          have hctx : (addTurn m infer t.1 t.2).context = some
              { lastIntent := some t.1,
                currentTopic := if trivialIntent t.1 then c0.currentTopic else some t.1,
                entityMentions := mergeF c0.entityMentions t.2,
                conversationFlow := pushFlow c0.conversationFlow t.1 } := by
            simp [addTurn, hmc]
          rw [hctx] at hctx'
          cases hctx'
          exact pushFlow_length_le _ _
    refine aux turns freshSessionMem ?_
    intro ctx hc
    have : freshSessionMem.context = some
        { lastIntent := none, currentTopic := none, entityMentions := [],
          conversationFlow := ["session_start"] } := rfl
    rw [this] at hc
    cases hc
    decide
  · intro m ctx intent slots hm hlen
    refine ⟨{ lastIntent := some intent,
              currentTopic := if trivialIntent intent then ctx.currentTopic else some intent,
              entityMentions := mergeF ctx.entityMentions slots,
              conversationFlow := pushFlow ctx.conversationFlow intent }, ?_, ?_⟩
    · simp [addTurn, hm]
    · exact pushFlow_of_full _ _ hlen

/-- C9 witness: pushing an eleventh intent onto a full flow evicts the oldest
entry. -/
theorem c9_conversationFlow_bounded_witness :
    ((addTurn c9FullMem (fun p _ => p) "k" []).context).map (fun c => c.conversationFlow)
      = some ["b", "c", "d", "e", "f", "g", "h", "i", "j", "k"] := by
  obtain ⟨ctx', h1, h2⟩ :=
    (c9_conversationFlow_bounded (fun p _ => p) []).2 c9FullMem
      { lastIntent := none, currentTopic := none, entityMentions := [],
        conversationFlow := ["a", "b", "c", "d", "e", "f", "g", "h", "i", "j"] }
      "k" [] rfl (by decide)
  rw [h1]
  show some ctx'.conversationFlow = some ["b", "c", "d", "e", "f", "g", "h", "i", "j", "k"]
  rw [h2]
  rfl

/-- C7 (amended): whenever the detector is initialized, or a valid
configuration is currently loaded, detectIntent returns normally (does not
throw) with a name from the configured intent set or 'unknown'; with no
template and no loaded (valid) configuration the source throws before its
try block, so the never-throws guarantee holds only under this hypothesis. -/
theorem c7_detectIntent_total_amended (st : DetectorState) (current : Option RuntimeConfig)
    (modelResp : Except Unit String)
    (hready : st.promptTemplate.isSome = true
      ∨ ∃ rc, current = some rc ∧ rc.isValid = true) :
    okFromIntentSet (detectIntent st current modelResp) (detectorIntentSet st current) = true := by
  have hrun : ∀ (names : List String) (resp : Except Unit String),
      okFromIntentSet (.ok (detectorRun names resp)) names = true := by
    intro names resp
    cases resp with
    | error e => simp [detectorRun, okFromIntentSet]
    | ok r =>
      simp only [detectorRun, okFromIntentSet]
      by_cases hc : names.contains ((jsTrim r).toLower) = true
      · rw [if_pos hc]
        show (((jsTrim r).toLower == "unknown") || names.contains ((jsTrim r).toLower)) = true
        rw [hc, Bool.or_true]
      · rw [if_neg hc]
        simp
  cases hpt : st.promptTemplate with
  | some t =>
    have hd : detectIntent st current modelResp = .ok (detectorRun st.validIntents modelResp) := by
      simp [detectIntent, hpt]
    have hset : detectorIntentSet st current = st.validIntents := by
      simp [detectorIntentSet, hpt]
    rw [hd, hset]
    exact hrun _ _
  | none =>
    rcases hready with h | ⟨rc, hcur, hval⟩
    · rw [hpt] at h
      simp at h
    · subst hcur
      have hd : detectIntent st (some rc) modelResp
          = .ok (detectorRun (rc.config.intents.map (fun i => i.name)) modelResp) := by
        simp [detectIntent, hpt, hval]
      have hset : detectorIntentSet st (some rc)
          = rc.config.intents.map (fun i => i.name) := by
        simp [detectorIntentSet, hpt]
      rw [hd, hset]
      exact hrun _ _

/-- C7 witness: an initialized detector answers normally on any model
response. -/
theorem c7_detectIntent_total_amended_witness :
    okFromIntentSet (detectIntent c7ReadyDetector none (.ok " GREET "))
      (detectorIntentSet c7ReadyDetector none) = true :=
  c7_detectIntent_total_amended c7ReadyDetector none (.ok " GREET ") (Or.inl rfl)

/-- C8 (amended): for a field over a uniquely-keyed extracted map, an
enumerated (list-type, with declared choices) slot whose trimmed value equals
no declared choice is dropped; a non-enumerated slot whose custom validator
does not accept the trimmed value is dropped; and the presence of the field
never changes any other key's cleaned value (and extraction never aborts:
the cleaning function is total). Kept values are stored trimmed — the only
coercion applied, which is what forces the amendment. -/
theorem c8_invalid_value_dropped (defs : List SlotDefinition) (m : FieldMap) (k : String)
    (s : String) (cs : List String) (sd : SlotDefinition)
    (hnd : (m.map Prod.fst).Nodup)
    (hlk : alookup m k = some (some s)) (hs : s ≠ "")
    (hfind : defs.find? (fun d => d.name == k) = some sd) :
    (sd.type = "list" → sd.choices = some cs → cs.contains (jsTrim s) = false →
      hasKey (validateAndCleanSlots (some defs) m) k = false)
    ∧ (∀ f : String → Except Unit ValRes,
        (sd.type == "list" && sd.choices.isSome) = false → sd.validate = some f →
        f (jsTrim s) ≠ .ok .vtrue →
        hasKey (validateAndCleanSlots (some defs) m) k = false)
    ∧ (∀ k', k' ≠ k →
        alookup (validateAndCleanSlots (some defs) m) k'
          = alookup (validateAndCleanSlots (some defs) (m.filter (fun kv => !(kv.1 == k)))) k') := by
  refine ⟨?_, ?_, ?_⟩
  · intro htype hch hcont
    have hval : validateSlotValue sd (some s) = none := by
      have hb : (sd.type == "list" && (some cs).isSome) = true := by
        rw [htype]
        rfl
      simp only [validateSlotValue, if_neg hs, hch, hb, eq_self_iff_true, if_true,
        Option.getD_some, hcont, Bool.false_eq_true, if_false]
    show (alookup (validateAndCleanSlots (some defs) m) k).isSome = false
    rw [alookup_clean defs m hnd k]
    simp only [hlk, hfind, hval]
    rfl
  · intro f hb hvf hrej
    have hval : validateSlotValue sd (some s) = none := by
      simp only [validateSlotValue, if_neg hs, hb, Bool.false_eq_true, if_false, hvf]
      cases hres : f (jsTrim s) with
      | error e => rfl
      | ok r =>
        cases r with
        | vtrue => exact absurd hres hrej
        | vfalse => rfl
        | vstr q => rfl
    show (alookup (validateAndCleanSlots (some defs) m) k).isSome = false
    rw [alookup_clean defs m hnd k]
    simp only [hlk, hfind, hval]
    rfl
  · intro k' hk'
    have hndf : ((m.filter (fun kv => !(kv.1 == k))).map Prod.fst).Nodup :=
      ((List.filter_sublist _).map Prod.fst).nodup hnd
    rw [alookup_clean defs m hnd k', alookup_clean defs _ hndf k',
      alookup_filter_ne m k k' hk']

/-- C8 witness: the invalid enumerated value `evening` is dropped while the
unrelated field `note` is cleaned identically with or without it. -/
theorem c8_invalid_value_dropped_witness :
    hasKey (validateAndCleanSlots (some c8Defs) c8WMap) "service" = false
    ∧ alookup (validateAndCleanSlots (some c8Defs) c8WMap) "note"
        = alookup (validateAndCleanSlots (some c8Defs)
            (c8WMap.filter (fun kv => !(kv.1 == "service")))) "note" := by
  obtain ⟨ha, hb, hc⟩ :=
    c8_invalid_value_dropped c8Defs c8WMap "service" "evening" ["morning"]
      { name := "service", message := "Which service?", type := "list",
        choices := some ["morning"], validate := none }
      (by decide) rfl (by decide) rfl
  exact ⟨ha rfl rfl (by decide), hc "note" (by decide)⟩

theorem applyPreferences_preserves (p? : Option Preferences) (m : FieldMap) (k : String)
    (h : truthyAt m k = true) : alookup (applyPreferences p? m) k = alookup m k := by
  cases p? with
  | none => rfl
  | some p =>
    have h1 : alookup (if !(truthyAt m "time") && truthy p.preferredTimeOfDay then
        setA m "time" p.preferredTimeOfDay else m) k = alookup m k := by
      by_cases hc : (!(truthyAt m "time") && truthy p.preferredTimeOfDay) = true
      · rw [if_pos hc]
        by_cases hk : k = "time"
        · subst hk
          rw [h] at hc
          simp at hc
        · exact alookup_setA_ne _ _ _ _ hk
      · rw [if_neg hc]
    set m1 := if !(truthyAt m "time") && truthy p.preferredTimeOfDay then
        setA m "time" p.preferredTimeOfDay else m with hm1
    have h2 : alookup (if !(truthyAt m1 "date") && !p.preferredDays.isEmpty then
        setA m1 "date" (some (p.preferredDays.headD "")) else m1) k = alookup m1 k := by
      by_cases hc : (!(truthyAt m1 "date") && !p.preferredDays.isEmpty) = true
      · rw [if_pos hc]
        by_cases hk : k = "date"
        · subst hk
          rw [(truthyAt_congr h1).trans h] at hc
          simp at hc
        · exact alookup_setA_ne _ _ _ _ hk
      · rw [if_neg hc]
    exact h2.trans h1

theorem applyPreferences_other (p? : Option Preferences) (m : FieldMap) (k : String)
    (ht : k ≠ "time") (hd : k ≠ "date") :
    alookup (applyPreferences p? m) k = alookup m k := by
  cases p? with
  | none => rfl
  | some p =>
    have h1 : alookup (if !(truthyAt m "time") && truthy p.preferredTimeOfDay then
        setA m "time" p.preferredTimeOfDay else m) k = alookup m k := by
      by_cases hc : (!(truthyAt m "time") && truthy p.preferredTimeOfDay) = true
      · rw [if_pos hc]; exact alookup_setA_ne _ _ _ _ ht
      · rw [if_neg hc]
    set m1 := if !(truthyAt m "time") && truthy p.preferredTimeOfDay then
        setA m "time" p.preferredTimeOfDay else m with hm1
    have h2 : alookup (if !(truthyAt m1 "date") && !p.preferredDays.isEmpty then
        setA m1 "date" (some (p.preferredDays.headD "")) else m1) k = alookup m1 k := by
      by_cases hc : (!(truthyAt m1 "date") && !p.preferredDays.isEmpty) = true
      · rw [if_pos hc]; exact alookup_setA_ne _ _ _ _ hd
      · rw [if_neg hc]
    exact h2.trans h1

theorem applyPreferences_fills_time (p : Preferences) (m : FieldMap)
    (h : truthyAt m "time" = false) (hp : truthy p.preferredTimeOfDay = true) :
    alookup (applyPreferences (some p) m) "time" = some p.preferredTimeOfDay := by
  have hc : (!(truthyAt m "time") && truthy p.preferredTimeOfDay) = true := by
    rw [h, hp]; rfl
  show alookup (if !(truthyAt (if !(truthyAt m "time") && truthy p.preferredTimeOfDay then
      setA m "time" p.preferredTimeOfDay else m) "date") && !p.preferredDays.isEmpty then
      setA (if !(truthyAt m "time") && truthy p.preferredTimeOfDay then
        setA m "time" p.preferredTimeOfDay else m) "date" (some (p.preferredDays.headD ""))
      else (if !(truthyAt m "time") && truthy p.preferredTimeOfDay then
        setA m "time" p.preferredTimeOfDay else m)) "time" = some p.preferredTimeOfDay
  rw [if_pos hc]
  by_cases hc2 : (!(truthyAt (setA m "time" p.preferredTimeOfDay) "date")
      && !p.preferredDays.isEmpty) = true
  · rw [if_pos hc2, alookup_setA_ne _ _ _ _ (by decide), alookup_setA_self]
  · rw [if_neg hc2, alookup_setA_self]

theorem applyPreferences_fills_date (p : Preferences) (m : FieldMap)
    (h : truthyAt m "date" = false) (hp : p.preferredDays ≠ []) :
    alookup (applyPreferences (some p) m) "date" = some (some (p.preferredDays.headD "")) := by
  have hpe : p.preferredDays.isEmpty = false := by
    cases hl : p.preferredDays with
    | nil => exact absurd hl hp
    | cons a l => rfl
  set m1 := if !(truthyAt m "time") && truthy p.preferredTimeOfDay then
      setA m "time" p.preferredTimeOfDay else m with hm1
  have hdate : truthyAt m1 "date" = false := by
    rw [hm1]
    by_cases hc : (!(truthyAt m "time") && truthy p.preferredTimeOfDay) = true
    · rw [if_pos hc, truthyAt_congr (alookup_setA_ne m "time" "date" _ (by decide))]
      exact h
    · rw [if_neg hc]; exact h
  have hc2 : (!(truthyAt m1 "date") && !p.preferredDays.isEmpty) = true := by
    rw [hdate, hpe]; rfl
  show alookup (if !(truthyAt m1 "date") && !p.preferredDays.isEmpty then
      setA m1 "date" (some (p.preferredDays.headD "")) else m1) "date"
    = some (some (p.preferredDays.headD ""))
  rw [if_pos hc2, alookup_setA_self]

/-- C4: precedence of the per-turn field merge. The in-progress collection's
collected slots are the base and freshly extracted fields override them; the
preference backfill then touches only the still-falsy `time` and `date`
fields; the entity-mention backfill then fills only still-falsy fields from
truthy remembered values; and neither backfill ever overwrites a field
already set (truthy) at an earlier stage. -/
theorem c4_merge_precedence (raw : FieldMap) (scState : Option SlotCollectionState)
    (preferences : Option Preferences) (context : Option ContextState)
    (hraw : (raw.map Prod.fst).Nodup)
    (hctx : ∀ c, context = some c → (c.entityMentions.map Prod.fst).Nodup) :
    (∀ k v, alookup raw k = some v → alookup (applyCollected scState raw) k = some v)
    ∧ (∀ k sc, scState = some sc → alookup raw k = none →
        alookup (applyCollected scState raw) k = alookup sc.collectedSlots k)
    ∧ (∀ k, truthyAt (applyCollected scState raw) k = true →
        alookup (applyPreferences preferences (applyCollected scState raw)) k
          = alookup (applyCollected scState raw) k)
    ∧ (∀ k, k ≠ "time" → k ≠ "date" →
        alookup (applyPreferences preferences (applyCollected scState raw)) k
          = alookup (applyCollected scState raw) k)
    ∧ (∀ p, preferences = some p → truthyAt (applyCollected scState raw) "time" = false →
        truthy p.preferredTimeOfDay = true →
        alookup (applyPreferences preferences (applyCollected scState raw)) "time"
          = some p.preferredTimeOfDay)
    ∧ (∀ p, preferences = some p → truthyAt (applyCollected scState raw) "date" = false →
        p.preferredDays ≠ [] →
        alookup (applyPreferences preferences (applyCollected scState raw)) "date"
          = some (some (p.preferredDays.headD "")))
    ∧ (∀ k, truthyAt (applyPreferences preferences (applyCollected scState raw)) k = true →
        alookup (extractSlotsWithContext raw scState preferences context) k
          = alookup (applyPreferences preferences (applyCollected scState raw)) k)
    ∧ (∀ k v c, context = some c →
        truthyAt (applyPreferences preferences (applyCollected scState raw)) k = false →
        alookup c.entityMentions k = some v → truthy v = true →
        alookup (extractSlotsWithContext raw scState preferences context) k = some v) := by
  refine ⟨?_, ?_, ?_, ?_, ?_, ?_, ?_, ?_⟩
  · intro k v hv
    cases scState with
    | none => exact hv
    | some sc =>
      show alookup (mergeF sc.collectedSlots raw) k = some v
      rw [alookup_mergeF _ _ _ hraw, hv]
  · intro k sc hsc hv
    subst hsc
    show alookup (mergeF sc.collectedSlots raw) k = alookup sc.collectedSlots k
    rw [alookup_mergeF _ _ _ hraw, hv]
  · intro k h
    exact applyPreferences_preserves preferences _ k h
  · intro k ht hd
    exact applyPreferences_other preferences _ k ht hd
  · intro p hp h htr
    subst hp
    exact applyPreferences_fills_time p _ h htr
  · intro p hp h hne
    subst hp
    exact applyPreferences_fills_date p _ h hne
  · intro k h
    cases hco : context with
    | none => rfl
    | some c =>
      show alookup (entityFold c.entityMentions
        (applyPreferences preferences (applyCollected scState raw))) k = _
      exact entityFold_alookup_of_truthy _ _ k h
  · intro k v c hco h he hv
    subst hco
    show alookup (entityFold c.entityMentions
      (applyPreferences preferences (applyCollected scState raw))) k = some v
    exact entityFold_fills _ _ k v (hctx c rfl) h he hv

/-- C4 witness: the fresh `purpose` overrides the remembered entity and the
collection base stays; the unrelated `doctor` mention backfills a hole. -/
theorem c4_merge_precedence_witness :
    alookup (applyCollected (some c4WState) c4WRaw) "purpose" = some (some "Car purchase")
    ∧ alookup (extractSlotsWithContext c4WRaw (some c4WState) (some c4WPrefs)
        (some c4WContext)) "doctor" = some (some "Dr. Smith") := by
  obtain ⟨h1, h2, h3, h4, h5, h6, h7, h8⟩ :=
    c4_merge_precedence c4WRaw (some c4WState) (some c4WPrefs) (some c4WContext)
      (by decide) (by intro c hc; cases hc; decide)
  refine ⟨h1 "purpose" (some "Car purchase") rfl, ?_⟩
  exact h8 "doctor" (some "Dr. Smith") c4WContext rfl (by decide) (by decide) (by decide)

theorem generateSlotFollowUpQuestion_of_none (s intent : String)
    (h : (alookup followUpTable intent).bind (fun qs => alookup qs s) = none) :
    generateSlotFollowUpQuestion s intent
      = "Could you please provide your " ++ replaceFirstUnderscore s ++ "?" := by
  unfold generateSlotFollowUpQuestion
  cases h1 : alookup followUpTable intent with
  | none => rfl
  | some qs =>
    rw [h1] at h
    have h' : alookup qs s = none := by simpa using h
    show (match alookup qs s with
          | some q => if q != "" then q else genericFollowUp s
          | none => genericFollowUp s) = _
    rw [h']
    rfl

theorem generateSlotFollowUpQuestion_of_some (s intent q : String)
    (h : (alookup followUpTable intent).bind (fun qs => alookup qs s) = some q)
    (hq : q ≠ "") : generateSlotFollowUpQuestion s intent = q := by
  unfold generateSlotFollowUpQuestion
  cases h1 : alookup followUpTable intent with
  | none => rw [h1] at h; exact Option.noConfusion h
  | some qs =>
    rw [h1] at h
    have h' : alookup qs s = some q := by simpa using h
    show (match alookup qs s with
          | some q => if q != "" then q else genericFollowUp s
          | none => genericFollowUp s) = q
    rw [h']
    show (if q != "" then q else genericFollowUp s) = q
    rw [if_pos (by simpa using hq)]

/-- C5 (amended): with slots missing, the emitted follow-up question is for
the first missing slot in declaration order (the first declared slot that is
not filled), taken from the per-intent-and-slot lookup table when a non-empty
phrasing is registered, and otherwise the generic phrasing
"Could you please provide your <slot name>?" with only the FIRST underscore
of the slot name replaced by a space (JavaScript `replace` with a string
pattern replaces one occurrence, which is what forces the amendment). -/
theorem c5_followup_first_missing (intents : List IntentDefinition) (intent : String)
    (ic : IntentDefinition) (extracted : FieldMap) (mem : MemState)
    (hic : intents.find? (fun i => i.name == intent) = some ic)
    (hmiss : computeMissing (intentSlotList ic) extracted ≠ []) :
    ((handleSlotCollection intents intent extracted mem).1).followUpMessage
        = some (generateSlotFollowUpQuestion
            (((intentSlotList ic).dropWhile (fun x => truthyAt extracted x)).headD "") intent)
    ∧ truthyAt extracted
        (((intentSlotList ic).dropWhile (fun x => truthyAt extracted x)).headD "") = false
    ∧ (((intentSlotList ic).dropWhile (fun x => truthyAt extracted x)).headD "")
        ∈ intentSlotList ic
    ∧ ((alookup followUpTable intent).bind (fun qs => alookup qs
          (((intentSlotList ic).dropWhile (fun x => truthyAt extracted x)).headD "")) = none →
        generateSlotFollowUpQuestion
            (((intentSlotList ic).dropWhile (fun x => truthyAt extracted x)).headD "") intent
          = "Could you please provide your "
            ++ replaceFirstUnderscore
                (((intentSlotList ic).dropWhile (fun x => truthyAt extracted x)).headD "")
            ++ "?")
    ∧ (∀ q, (alookup followUpTable intent).bind (fun qs => alookup qs
          (((intentSlotList ic).dropWhile (fun x => truthyAt extracted x)).headD "")) = some q →
        q ≠ "" →
        generateSlotFollowUpQuestion
            (((intentSlotList ic).dropWhile (fun x => truthyAt extracted x)).headD "") intent
          = q) := by
  have hhead : (computeMissing (intentSlotList ic) extracted).headD ""
      = ((intentSlotList ic).dropWhile (fun x => truthyAt extracted x)).headD "" := by
    rw [computeMissing]
    exact filter_not_headD _ _ _
  have hmem : (computeMissing (intentSlotList ic) extracted).headD ""
      ∈ computeMissing (intentSlotList ic) extracted := by
    cases h : computeMissing (intentSlotList ic) extracted with
    | nil => exact absurd h hmiss
    | cons a l => simp
  have hmemf := List.mem_filter.mp hmem
  obtain ⟨hfu, _⟩ := handleSlotCollection_missing intents intent extracted mem ic hic hmiss
  refine ⟨?_, ?_, ?_, ?_, ?_⟩
  · rw [hfu, hhead]
  · rw [← hhead]
    simpa using hmemf.2
  · rw [← hhead]
    exact hmemf.1
  · intro hnone
    exact generateSlotFollowUpQuestion_of_none _ intent hnone
  · intro q hq hqne
    exact generateSlotFollowUpQuestion_of_some _ intent q hq hqne

/-- C5 witness: with the amount filled and the purpose missing, the follow-up
is the registered loan-inquiry phrasing for `purpose`. -/
theorem c5_followup_first_missing_witness :
    ((handleSlotCollection c3WConfig.config.intents "loan_inquiry" c5WExtracted
        freshSessionMem).1).followUpMessage = some "What is the loan for?" := by
  have h := (c5_followup_first_missing c3WConfig.config.intents "loan_inquiry"
    { name := "loan_inquiry", patterns := ["loan"], description := "loan inquiry",
      skillHandler := "loanSkill", slots := some ["amount", "purpose"] }
    c5WExtracted freshSessionMem (by decide) (by decide)).1
  exact h

/-- C3 (amended): with a registered handler bound to the classified intent,
the skill runs in the turn exactly when the computed missingSlots set is
empty after the merge, receiving the final merged field map; when the intent
declares at least one required slot and missingSlots is empty, any active
collection is completed (cleared) before the skill runs; when the intent
declares no required slots the skill runs but an active collection is left
untouched (which is what forces the amendment); and when missingSlots is
non-empty the response is the follow-up question for the first missing slot,
the collection stays active, and no skill output is produced. -/
theorem c3_skill_gating (rc : RuntimeConfig) (ports : Ports) (mem : MemState)
    (intent : String) (raw : FieldMap) (ic : IntentDefinition) (hv : SkillVal)
    (hdet : ports.detect = .ok intent)
    (hext : ports.extract intent = .ok raw)
    (hic : rc.config.intents.find? (fun i => i.name == intent) = some ic)
    (hskill : alookup rc.config.skills ic.skillHandler = some hv) :
    (intentSlotList ic = [] →
      (processMessage (some rc) ports mem).1
          = skillOutcome hv
              (extractSlotsWithContext raw mem.slotCollection mem.preferences mem.context)
        ∧ ((processMessage (some rc) ports mem).2).slotCollection = mem.slotCollection)
    ∧ (intentSlotList ic ≠ [] →
       computeMissing (intentSlotList ic)
         (extractSlotsWithContext raw mem.slotCollection mem.preferences mem.context) = [] →
      (processMessage (some rc) ports mem).1
          = skillOutcome hv
              (extractSlotsWithContext raw mem.slotCollection mem.preferences mem.context)
        ∧ ((processMessage (some rc) ports mem).2).slotCollection = none)
    ∧ (computeMissing (intentSlotList ic)
         (extractSlotsWithContext raw mem.slotCollection mem.preferences mem.context) ≠ [] →
      (processMessage (some rc) ports mem).1
          = generateSlotFollowUpQuestion
              ((computeMissing (intentSlotList ic)
                (extractSlotsWithContext raw mem.slotCollection mem.preferences mem.context)).headD "")
              intent
        ∧ ((processMessage (some rc) ports mem).2).slotCollection.isSome = true) := by
  refine ⟨?_, ?_, ?_⟩
  · intro hreq
    have hhs := handleSlotCollection_no_slots rc.config.intents intent
      (extractSlotsWithContext raw mem.slotCollection mem.preferences mem.context) mem ic hic hreq
    rw [processMessage_ok rc ports mem intent raw _ _ hdet hext hhs]
    constructor
    · show (if false && (((none : Option String).getD "") != "") then ((none : Option String).getD "")
        else executeSkill rc.config.intents rc.config.skills intent
          (extractSlotsWithContext raw mem.slotCollection mem.preferences mem.context)) = _
      rw [Bool.false_and, if_neg (by simp)]
      exact executeSkill_handler _ _ _ _ _ _ hic hskill
    · rw [addTurn_slotCollection]
  · intro hreq hmiss
    have hhs := handleSlotCollection_all_filled rc.config.intents intent
      (extractSlotsWithContext raw mem.slotCollection mem.preferences mem.context) mem ic hic
      hreq hmiss
    rw [processMessage_ok rc ports mem intent raw _ _ hdet hext hhs]
    constructor
    · show (if false && (((none : Option String).getD "") != "") then ((none : Option String).getD "")
        else executeSkill rc.config.intents rc.config.skills intent
          (extractSlotsWithContext raw mem.slotCollection mem.preferences mem.context)) = _
      rw [Bool.false_and, if_neg (by simp)]
      exact executeSkill_handler _ _ _ _ _ _ hic hskill
    · rw [addTurn_slotCollection]
      cases hsc : mem.slotCollection with
      | none => simp [hsc]
      | some sc => simp [hsc, completeSlotCollection]
  · intro hmiss
    obtain ⟨hres, hcoll⟩ := handleSlotCollection_missing rc.config.intents intent
      (extractSlotsWithContext raw mem.slotCollection mem.preferences mem.context) mem ic hic hmiss
    have hpair : handleSlotCollection rc.config.intents intent
        (extractSlotsWithContext raw mem.slotCollection mem.preferences mem.context) mem
      = ((handleSlotCollection rc.config.intents intent
            (extractSlotsWithContext raw mem.slotCollection mem.preferences mem.context) mem).1,
         (handleSlotCollection rc.config.intents intent
            (extractSlotsWithContext raw mem.slotCollection mem.preferences mem.context) mem).2) := rfl
    rw [processMessage_ok rc ports mem intent raw _ _ hdet hext hpair, hres]
    have hq := generateSlotFollowUpQuestion_ne_empty
      ((computeMissing (intentSlotList ic)
        (extractSlotsWithContext raw mem.slotCollection mem.preferences mem.context)).headD "")
      intent
    constructor
    · show (if true && ((Option.getD (some (generateSlotFollowUpQuestion _ intent)) "") != "")
          then Option.getD (some (generateSlotFollowUpQuestion _ intent)) ""
          else executeSkill rc.config.intents rc.config.skills intent
            (extractSlotsWithContext raw mem.slotCollection mem.preferences mem.context)) = _
      rw [Bool.true_and, Option.getD_some, if_pos (by simpa using hq)]
    · rw [addTurn_slotCollection]
      exact hcoll

/-- C3 witness: a complete single-turn loan inquiry runs the loan skill on
the merged fields and leaves no active collection. -/
theorem c3_skill_gating_witness :
    (processMessage (some c3WConfig) c3WPorts freshSessionMem).1 = "Here is your loan offer."
    ∧ ((processMessage (some c3WConfig) c3WPorts freshSessionMem).2).slotCollection = none := by
  obtain ⟨h1, h2, h3⟩ := c3_skill_gating c3WConfig c3WPorts freshSessionMem "loan_inquiry"
    [("amount", some "50000"), ("purpose", some "Car purchase")]
    { name := "loan_inquiry", patterns := ["loan"], description := "loan inquiry",
      skillHandler := "loanSkill", slots := some ["amount", "purpose"] }
    c3WHandler rfl rfl (by decide) rfl
  obtain ⟨ha, hb⟩ := h2 (by decide) (by decide)
  exact ⟨ha, hb⟩

/-- C6: any exception raised during classification or extraction reaches the
orchestration boundary and is converted into the generic error response with
the store untouched, and a throwing skill handler is caught at its invocation
boundary and converted into the generic retry response; processMessage is a
total function, so no exception ever propagates to the caller. -/
theorem c6_exception_boundary (rc : RuntimeConfig) (ports : Ports) (mem : MemState) :
    (ports.detect = .error () → processMessage (some rc) ports mem = (errorResponse, mem))
    ∧ (∀ intent, ports.detect = .ok intent → ports.extract intent = .error () →
        processMessage (some rc) ports mem = (errorResponse, mem))
    ∧ (∀ intent raw ic hv,
        ports.detect = .ok intent → ports.extract intent = .ok raw →
        rc.config.intents.find? (fun i => i.name == intent) = some ic →
        alookup rc.config.skills ic.skillHandler = some hv →
        runSkill hv (extractSlotsWithContext raw mem.slotCollection mem.preferences mem.context)
          = .error () →
        computeMissing (intentSlotList ic)
          (extractSlotsWithContext raw mem.slotCollection mem.preferences mem.context) = [] →
        (processMessage (some rc) ports mem).1
          = "Sorry, I encountered an error while processing your request. Please try again.") := by
  refine ⟨?_, ?_, ?_⟩
  · intro h
    exact processMessage_detect_error rc ports mem h
  · intro intent hdet hext
    exact processMessage_extract_error rc ports mem intent hdet hext
  · intro intent raw ic hv hdet hext hic hskill hthrow hmiss
    have hout : skillOutcome hv
        (extractSlotsWithContext raw mem.slotCollection mem.preferences mem.context)
      = "Sorry, I encountered an error while processing your request. Please try again." := by
      rw [skillOutcome, hthrow]
    by_cases hreq : intentSlotList ic = []
    · have hhs := handleSlotCollection_no_slots rc.config.intents intent
        (extractSlotsWithContext raw mem.slotCollection mem.preferences mem.context) mem ic hic hreq
      rw [processMessage_ok rc ports mem intent raw _ _ hdet hext hhs]
      show (if false && (((none : Option String).getD "") != "") then ((none : Option String).getD "")
        else executeSkill rc.config.intents rc.config.skills intent
          (extractSlotsWithContext raw mem.slotCollection mem.preferences mem.context)) = _
      rw [Bool.false_and, if_neg (by simp)]
      rw [executeSkill_handler _ _ _ _ _ _ hic hskill]
      exact hout
    · have hhs := handleSlotCollection_all_filled rc.config.intents intent
        (extractSlotsWithContext raw mem.slotCollection mem.preferences mem.context) mem ic hic
        hreq hmiss
      rw [processMessage_ok rc ports mem intent raw _ _ hdet hext hhs]
      show (if false && (((none : Option String).getD "") != "") then ((none : Option String).getD "")
        else executeSkill rc.config.intents rc.config.skills intent
          (extractSlotsWithContext raw mem.slotCollection mem.preferences mem.context)) = _
      rw [Bool.false_and, if_neg (by simp)]
      rw [executeSkill_handler _ _ _ _ _ _ hic hskill]
      exact hout

/-- C6 witness: a throwing extraction yields the generic error response and
leaves the session store untouched. -/
theorem c6_exception_boundary_witness :
    processMessage (some c3WConfig) c6WPorts freshSessionMem
      = (errorResponse, freshSessionMem) :=
  (c6_exception_boundary c3WConfig c6WPorts freshSessionMem).2.1 "loan_inquiry" rfl rfl

end Orch
